import Mathlib

/-
Verification development for the Minecraft_graficas ray tracer.

The rendering core is embedded shallowly in Lean 4:
* f32 scalars are modelled by exact rationals (ℚ); the slab test, which
  manipulates IEEE infinities and NaNs, uses an explicit extended type `F`
  mirroring the IEEE-754 behaviour of the exact operations the code performs
  (multiplication by an infinite inverse, Rust's NaN-ignoring min/max, and
  NaN-incomparable ordering).
* the modules `utils.rs`, `ray.rs`, `color.rs`, `material.rs`, `camera.rs`,
  `intersection.rs`, `light.rs`, `point_light.rs` are declared in `main.rs`
  but their sources are not present in the repository snapshot; the
  definitions below that embed them are marked "Modelled from the spec".
* the renderer's bounded recursion on an i32 depth counter with ceiling 5 is
  embedded structurally through the remaining-bounce count (5 - depth).toNat,
  which is 0 exactly when depth >= MAX_DEPTH.
-/

set_option maxHeartbeats 1000000

/-- Modelled from the spec: 3-component vector (utils.rs is missing from the
snapshot); "3-component floating-point vector arithmetic (dot, cross,
normalize, reflect, refract)". Components are exact rationals. -/
structure Vec3 where
  x : ℚ
  y : ℚ
  z : ℚ
deriving DecidableEq

instance : Add Vec3 := ⟨fun a b => ⟨a.x + b.x, a.y + b.y, a.z + b.z⟩⟩
instance : Sub Vec3 := ⟨fun a b => ⟨a.x - b.x, a.y - b.y, a.z - b.z⟩⟩
instance : Neg Vec3 := ⟨fun a => ⟨-a.x, -a.y, -a.z⟩⟩
instance : HMul Vec3 ℚ Vec3 := ⟨fun a s => ⟨a.x * s, a.y * s, a.z * s⟩⟩

def Vec3.dot (a b : Vec3) : ℚ := a.x * b.x + a.y * b.y + a.z * b.z

def Vec3.cross (a b : Vec3) : Vec3 :=
  ⟨a.y * b.z - a.z * b.y, a.z * b.x - a.x * b.z, a.x * b.y - a.y * b.x⟩

def Vec3.zero : Vec3 := ⟨0, 0, 0⟩

/-- Modelled from the spec: a computable stand-in for the f32 square root used
by the missing vector module (Newton iteration; no claim depends on its
value, only on the sign test guarding it in `Vec3.refract`). -/
def sqrtQ (q : ℚ) : ℚ :=
  if q ≤ 0 then 0
  else (List.range 8).foldl (fun x _ => (x + q / x) / 2) (max q 1)

/-- Modelled from the spec: mirror direction of `d` about the normal `n`
("compute the mirror direction of the incoming ray about the normal"). -/
def Vec3.reflect (d n : Vec3) : Vec3 := d - n * (2 * d.dot n)

/-- Modelled from the spec: Snell refraction, "compute the refracted direction
using Snell's law with eta = 1/refractive_index; if total internal reflection
occurs (no real solution), skip this contribution".  Returns `none` exactly
when the discriminant is negative (total internal reflection). -/
def Vec3.refract (d n : Vec3) (eta : ℚ) : Option Vec3 :=
  let cosi := -(d.dot n)
  let k := 1 - eta * eta * (1 - cosi * cosi)
  if k < 0 then none
  else some (d * eta + n * (eta * cosi - sqrtQ k))

/-- Modelled from the spec: RGB color with rational channels (color.rs is
missing from the snapshot); addition and multiplication are componentwise,
scalar multiplication scales every channel. -/
structure Color where
  r : ℚ
  g : ℚ
  b : ℚ
deriving DecidableEq

instance : Add Color := ⟨fun a b => ⟨a.r + b.r, a.g + b.g, a.b + b.b⟩⟩
instance : Mul Color := ⟨fun a b => ⟨a.r * b.r, a.g * b.g, a.b * b.b⟩⟩
instance : HMul Color ℚ Color := ⟨fun a s => ⟨a.r * s, a.g * s, a.b * s⟩⟩

def Color.black : Color := ⟨0, 0, 0⟩

/-- Modelled from the spec: "Final color is clamped per channel to the valid
display range" — each channel clamped to [0, 1]. -/
def Color.clamp (c : Color) : Color :=
  ⟨min 1 (max 0 c.r), min 1 (max 0 c.g), min 1 (max 0 c.b)⟩

/-- Display color written into the caller-owned pixel buffer (raylib's
byte-channel color). -/
structure RColor where
  r : ℕ
  g : ℕ
  b : ℕ
  a : ℕ
deriving DecidableEq

/-- Modelled from the spec: conversion of a float color to the display color
(clamp to the display range, scale to bytes). -/
def Color.toRaylib (c : Color) : RColor :=
  ⟨(⌊min 1 (max 0 c.r) * 255⌋).toNat, (⌊min 1 (max 0 c.g) * 255⌋).toNat,
   (⌊min 1 (max 0 c.b) * 255⌋).toNat, 255⟩

/-- Modelled from the spec: "Ray: origin vector + direction vector"
(ray.rs is missing from the snapshot). -/
structure Ray where
  origin : Vec3
  direction : Vec3
deriving DecidableEq

def Ray.at (r : Ray) (t : ℚ) : Vec3 := r.origin + r.direction * t

/-- Modelled from the spec: material of the full pipeline (material.rs is
missing from the snapshot): "base color (and optional texture sample
function), reflectivity, transparency + refractive index, emissive color,
specular strength/exponent"; `getColor` samples the texture at (u,v) when one
is bound, else returns the flat color. -/
structure Material where
  diffuse : Color
  texture : Option (ℚ → ℚ → Color)
  reflectivity : ℚ
  transparency : ℚ
  refractiveIndex : ℚ
  emissive : Color
  specular : ℚ
  shininess : ℚ

def Material.getColor (m : Material) (u v : ℚ) : Color :=
  match m.texture with
  | some f => f u v
  | none => m.diffuse

/-- Modelled from the spec: hit record (intersection.rs is missing from the
snapshot): "distance along ray, world-space hit position, world-space normal,
material, and interpolated surface UV". Field order follows the
`Intersection::new` call sites in obj_loader.rs. -/
structure Intersection where
  t : ℚ
  position : Vec3
  normal : Vec3
  material : Material
  u : ℚ
  v : ℚ

def Intersection.new (t : ℚ) (position normal : Vec3) (material : Material)
    (u v : ℚ) : Intersection :=
  ⟨t, position, normal, material, u, v⟩

/-- Modelled from the spec: directional light (light.rs is missing from the
snapshot): "direction vector + color + intensity scalar". -/
structure DirectionalLight where
  direction : Vec3
  color : Color
  intensity : ℚ

/-- Modelled from the spec: point light (point_light.rs is missing from the
snapshot); present in the `Scene` struct but unused by the renderer. -/
structure PointLight where
  position : Vec3
  color : Color
  intensity : ℚ

/-- Modelled from the spec: the sky/environment sampler. The skybox.rs in the
snapshot exposes a 5-argument `sample` incompatible with the renderer's
2-argument call `scene.skybox.sample(ray, 0.0)`, so the version the renderer
compiles against is missing; per the spec it "produces a background color for
rays that hit nothing" from a miss ray and a time-of-day scalar.  Its internal
gradient/sun-disk computation (fractional powers) is abstracted as the
sampling function itself, which no claim inspects. -/
structure Skybox where
  sample : Ray → ℚ → Color

/-- Triangle from obj_loader.rs: three vertices plus the precomputed face
normal stored at construction. -/
structure Triangle where
  v0 : Vec3
  v1 : Vec3
  v2 : Vec3
  normal : Vec3

/-- Möller–Trumbore intersection, from obj_loader.rs `Triangle::intersect`. -/
def Triangle.intersect (tri : Triangle) (ray : Ray) : Option ℚ :=
  let edge1 := tri.v1 - tri.v0
  let edge2 := tri.v2 - tri.v0
  let h := ray.direction.cross edge2
  let a := edge1.dot h
  if |a| < 1/100000 then none
  else
    let f := 1 / a
    let s := ray.origin - tri.v0
    let u := f * s.dot h
    if u < 0 ∨ u > 1 then none
    else
      let q := s.cross edge1
      let v := f * ray.direction.dot q
      if v < 0 ∨ u + v > 1 then none
      else
        let t := f * edge2.dot q
        if t > 1/1000 then some t else none

/-- Mesh from obj_loader.rs: triangles, a local-to-world translation offset,
and one material. -/
structure Mesh where
  triangles : List Triangle
  position : Vec3
  material : Material

/-- Mesh intersection from obj_loader.rs `Mesh::intersect`: the ray is
translated into mesh-local space, every triangle is scanned linearly keeping
the strictly smaller distance (`t < closest_t`, infinity initial value is
rendered by the `Option` accumulator), and the hit is rebuilt on the world
ray with the mesh material and the triangle's stored normal and zero UV. -/
def Mesh.intersect (m : Mesh) (ray : Ray) : Option Intersection :=
  let localRay : Ray := ⟨ray.origin - m.position, ray.direction⟩
  let closest := m.triangles.foldl
    (fun acc tri =>
      match Triangle.intersect tri localRay with
      | some t =>
        match acc with
        | some (ct, _) => if t < ct then some (t, tri) else acc
        | none => some (t, tri)
      | none => acc)
    (none : Option (ℚ × Triangle))
  match closest with
  | some (ct, tri) =>
    some (Intersection.new ct (ray.at ct) tri.normal m.material 0 0)
  | none => none

/-- Modelled from the spec: the box primitive the `Scene` aggregates.  The
cube module the scene compiles against (material-carrying, returning an
`Option Intersection` with normal and UV) is missing from the snapshot — the
cube.rs present is an earlier generation with a different signature — so per
the spec's component design ("an unordered collection of intersectable
primitives ... exposes one operation — nearest intersection along a ray") a
box is modelled by the one operation the scene scan uses. -/
structure CubeS where
  intersect : Ray → Option Intersection

/-- Scene aggregate from scene.rs: boxes, meshes, the sun, point lights and
the sky sampler. -/
structure Scene where
  cubes : List CubeS
  meshes : List Mesh
  sun : DirectionalLight
  pointLights : List PointLight
  skybox : Skybox

/-- Body of the linear nearest-hit scan of scene.rs: one primitive is tested
and the accumulator keeps the hit of strictly smaller distance
(`intersection.t < closest_t`; the f32 infinity initial value of the source
is rendered by the `none` accumulator). -/
def nearestScan {β : Type} (getHit : β → Option Intersection) (l : List β)
    (init : Option Intersection) : Option Intersection :=
  l.foldl
    (fun acc prim =>
      match getHit prim with
      | some ix =>
        match acc with
        | some cx => if ix.t < cx.t then some ix else acc
        | none => some ix
      | none => acc)
    init

/-- Nearest-intersection query from scene.rs `Scene::intersect`: linearly
scans every box then every mesh, keeping the hit of strictly smaller distance
(`intersection.t < closest_t`); returns `none` when nothing intersects. -/
def Scene.intersect (s : Scene) (ray : Ray) : Option Intersection :=
  let afterCubes := nearestScan (fun cube => cube.intersect ray) s.cubes none
  nearestScan (fun mesh => Mesh.intersect mesh ray) s.meshes afterCubes

/-- Modelled from the spec: the camera collaborator, "supplies
get_ray(u, v) -> Ray for normalized screen coordinates"; the core does not
inspect camera internals (camera.rs is missing from the snapshot). -/
structure Camera where
  getRay : ℚ → ℚ → Ray

/-- Depth ceiling from renderer.rs: `const MAX_DEPTH: i32 = 5`. -/
def MAX_DEPTH : ℤ := 5

/-- Shading model from renderer.rs `trace_ray`, embedded structurally on the
remaining-bounce count: an invocation at depth `d` has `(MAX_DEPTH - d).toNat`
bounces left, which is `0` exactly when `d ≥ MAX_DEPTH` (the source's
`if depth >= MAX_DEPTH { return Color::black(); }` guard), and each recursive
call (`depth + 1` in the source) has one bounce fewer.  The body mirrors the
source line by line: emissive early return, ambient constant (0.4, 0.4, 0.45),
sun diffuse with hard shadow test, reflection blend, refraction blend, final
clamp, sky sample `scene.skybox.sample(ray, 0.0)` on miss. -/
def traceGo (scene : Scene) : ℕ → Ray → Color
  | 0, _ => Color.black
  | fuel + 1, ray =>
    match Scene.intersect scene ray with
    | some intersection =>
      let material := intersection.material
      let normal := intersection.normal
      let hitPoint := intersection.position
      let surfaceColor := material.getColor intersection.u intersection.v
      if 0 < material.emissive.r ∨ 0 < material.emissive.g ∨ 0 < material.emissive.b then
        material.emissive
      else
        let ambient : Color := ⟨2/5, 2/5, 9/20⟩
        let lightDir := -scene.sun.direction
        let diffuseStrength := max (normal.dot lightDir) 0
        let shadowRay : Ray := ⟨hitPoint + normal * (1/1000 : ℚ), lightDir⟩
        let inShadow := (Scene.intersect scene shadowRay).isSome
        let diffuse := if inShadow then Color.black
          else scene.sun.color * (diffuseStrength * scene.sun.intensity)
        let color0 := (ambient + diffuse) * surfaceColor
        let color1 :=
          if 0 < material.reflectivity then
            let reflectDir := ray.direction.reflect normal
            let reflectRay : Ray := ⟨hitPoint + normal * (1/1000 : ℚ), reflectDir⟩
            let reflectColor := traceGo scene fuel reflectRay
            color0 * (1 - material.reflectivity) + reflectColor * material.reflectivity
          else color0
        let color2 :=
          if 0 < material.transparency then
            let eta := 1 / material.refractiveIndex
            match Vec3.refract ray.direction normal eta with
            | some refractDir =>
              let refractRay : Ray := ⟨hitPoint - normal * (1/1000 : ℚ), refractDir⟩
              let refractColor := traceGo scene fuel refractRay
              color1 * (1 - material.transparency) + refractColor * material.transparency
            | none => color1
          else color1
        color2.clamp
    | none => scene.skybox.sample ray 0

/-- renderer.rs `trace_ray(ray, scene, depth)`: the i32 depth argument is kept
and translated to the remaining-bounce count. -/
def traceRay (ray : Ray) (scene : Scene) (depth : ℤ) : Color :=
  traceGo scene (MAX_DEPTH - depth).toNat ray

/-- Instrumentation of `traceGo` with the same guards and control flow: first
component counts how many times `Scene::intersect` is queried (primary and
shadow rays included), second component counts how many nested levels of
`trace_ray` pass the depth guard along the deepest recursive chain. -/
def traceMeter (scene : Scene) : ℕ → Ray → ℕ × ℕ
  | 0, _ => (0, 0)
  | fuel + 1, ray =>
    match Scene.intersect scene ray with
    | some intersection =>
      let material := intersection.material
      if 0 < material.emissive.r ∨ 0 < material.emissive.g ∨ 0 < material.emissive.b then
        (1, 1)
      else
        let normal := intersection.normal
        let hitPoint := intersection.position
        let reflM :=
          if 0 < material.reflectivity then
            traceMeter scene fuel ⟨hitPoint + normal * (1/1000 : ℚ), ray.direction.reflect normal⟩
          else (0, 0)
        let refrM :=
          if 0 < material.transparency then
            match Vec3.refract ray.direction normal (1 / material.refractiveIndex) with
            | some refractDir =>
              traceMeter scene fuel ⟨hitPoint - normal * (1/1000 : ℚ), refractDir⟩
            | none => (0, 0)
          else (0, 0)
        (2 + reflM.1 + refrM.1, 1 + max reflM.2 refrM.2)
    | none => (1, 1)

/-- Scene-query and nesting-level meter of `trace_ray` at an i32 depth. -/
def traceMeterAt (ray : Ray) (scene : Scene) (depth : ℤ) : ℕ × ℕ :=
  traceMeter scene (MAX_DEPTH - depth).toNat ray

/-- Sequential application of (pixel index, color) writes to the pixel
buffer, in list order — the merge loop of renderer.rs. -/
def applyWrites (buf : List RColor) (ws : List (ℕ × RColor)) : List RColor :=
  ws.foldl (fun b p => b.set p.1 p.2) buf

/-- Color of the logical sample (sx, sy) of the reduced grid, from
renderer.rs: `u = sx / scaled_width`, `v = sy / scaled_height`,
`trace_ray(camera.get_ray(u, v), scene, 0)`, converted for the buffer. -/
def sampleColor (scene : Scene) (cam : Camera) (sw sh sx sy : ℕ) : RColor :=
  let u : ℚ := (sx : ℚ) / (sw : ℚ)
  let v : ℚ := (sy : ℚ) / (sh : ℚ)
  (traceRay (cam.getRay u v) scene 0).toRaylib

/-- Writes of one k×k block, from renderer.rs: for dy, dx in 0..render_scale,
pixel (sx·k+dx, sy·k+dy) receives the sample color when inside the
width×height bounds, at flat index y·width + x. -/
def blockWrites (w h k sx sy : ℕ) (c : RColor) : List (ℕ × RColor) :=
  (List.range k).flatMap (fun dy =>
    (List.range k).filterMap (fun dx =>
      let x := sx * k + dx
      let y := sy * k + dy
      if x < w ∧ y < h then some (y * w + x, c) else none))

/-- Writes of one logical row sy: the sx loop of renderer.rs. -/
def rowWrites (scene : Scene) (cam : Camera) (w h sw sh k sy : ℕ) :
    List (ℕ × RColor) :=
  (List.range sw).flatMap (fun sx =>
    blockWrites w h k sx sy (sampleColor scene cam sw sh sx sy))

/-- renderer.rs `render_single_threaded`: strict row-major scan of the
reduced grid, writing each block directly into the shared buffer. -/
def renderSingleThreaded (scene : Scene) (cam : Camera) (buf : List RColor)
    (w h sw sh k : ℕ) : List RColor :=
  (List.range sh).foldl
    (fun b sy => applyWrites b (rowWrites scene cam w h sw sh k sy)) buf

/-- The (pixel index, color) list accumulated privately by the worker owning
logical rows [startRow, stopRow) — `local_pixels` of renderer.rs. -/
def bandWrites (scene : Scene) (cam : Camera) (w h sw sh k startRow stopRow : ℕ) :
    List (ℕ × RColor) :=
  (List.range' startRow (stopRow - startRow)).flatMap
    (rowWrites scene cam w h sw sh k)

/-- renderer.rs `render_threaded`: 4 workers over contiguous bands of
`rows_per_thread = (scaled_height + 4 - 1) / 4` logical rows (the band is
clipped to `scaled_height`), each accumulating its writes privately; the
bands are merged into the shared buffer in join order after all are done. -/
def renderThreaded (scene : Scene) (cam : Camera) (buf : List RColor)
    (w h sw sh k : ℕ) : List RColor :=
  let numThreads := 4
  let rowsPerThread := (sh + numThreads - 1) / numThreads
  (List.range numThreads).foldl
    (fun b t =>
      applyWrites b
        (bandWrites scene cam w h sw sh k (t * rowsPerThread)
          (min ((t + 1) * rowsPerThread) sh)))
    buf

/-- renderer.rs `render_scene`: computes the reduced grid
width/k × height/k and dispatches on the threading toggle. -/
def renderScene (scene : Scene) (cam : Camera) (buf : List RColor)
    (w h k : ℕ) (useThreading : Bool) : List RColor :=
  let sw := w / k
  let sh := h / k
  if useThreading then renderThreaded scene cam buf w h sw sh k
  else renderSingleThreaded scene cam buf w h sw sh k

/-- The complete write sequence of a single-threaded render, in emission
order. -/
def renderWrites (scene : Scene) (cam : Camera) (w h sw sh k : ℕ) :
    List (ℕ × RColor) :=
  (List.range sh).flatMap (rowWrites scene cam w h sw sh k)

namespace Slab

/-- IEEE-style extended value for the slab test of cube.rs: the finite f32
values are idealised as rationals, with the two infinities and NaN kept
explicit — the code stores `f32::INFINITY` for the inverse of a zero
direction component, so infinities and the products they form (including
0 × ∞ = NaN) flow through the min/max/comparison chain. -/
inductive F where
  | nan : F
  | ninf : F
  | fin : ℚ → F
  | pinf : F
deriving DecidableEq

/-- Product of a finite value with an extended value, following IEEE-754:
a finite times ±∞ carries the sign, and 0 × ±∞ is NaN. -/
def fmulQ (c : ℚ) : F → F
  | F.fin q => F.fin (c * q)
  | F.pinf => if 0 < c then F.pinf else if c < 0 then F.ninf else F.nan
  | F.ninf => if 0 < c then F.ninf else if c < 0 then F.pinf else F.nan
  | F.nan => F.nan

/-- Rust's `f32::min`: if either argument is NaN the other is returned,
otherwise the order minimum with -∞ below every finite value below +∞. -/
def fmin : F → F → F
  | F.nan, b => b
  | a, F.nan => a
  | F.ninf, _ => F.ninf
  | _, F.ninf => F.ninf
  | F.pinf, b => b
  | a, F.pinf => a
  | F.fin p, F.fin q => F.fin (min p q)

/-- Rust's `f32::max`: if either argument is NaN the other is returned,
otherwise the order maximum. -/
def fmax : F → F → F
  | F.nan, b => b
  | a, F.nan => a
  | F.pinf, _ => F.pinf
  | _, F.pinf => F.pinf
  | F.ninf, b => b
  | a, F.ninf => a
  | F.fin p, F.fin q => F.fin (max p q)

/-- IEEE `<` on extended values: any comparison with NaN is false. -/
def flt : F → F → Bool
  | F.nan, _ => false
  | _, F.nan => false
  | F.ninf, F.ninf => false
  | F.ninf, _ => true
  | _, F.ninf => false
  | F.pinf, _ => false
  | F.fin _, F.pinf => true
  | F.fin p, F.fin q => decide (p < q)

/-- Byte-channel color of the earlier-generation modules (`Color::new(u8,
u8, u8)` of ray_intersect copy.rs / ray_tracing.rs). -/
structure Color8 where
  r : ℕ
  g : ℕ
  b : ℕ
deriving DecidableEq

/-- Material of ray_intersect copy.rs: a single diffuse color. -/
structure Material where
  diffuse : Color8
deriving DecidableEq

/-- Intersect record of ray_intersect copy.rs: distance, flag, material. -/
structure Intersect where
  distance : F
  isIntersecting : Bool
  material : Material
deriving DecidableEq

def Intersect.new (distance : F) (material : Material) : Intersect :=
  ⟨distance, true, material⟩

def Intersect.empty : Intersect :=
  ⟨F.fin 0, false, ⟨⟨0, 0, 0⟩⟩⟩

/-- Axis-aligned box of cube.rs: min and max corners plus a material. -/
structure Cube where
  min : Vec3
  max : Vec3
  material : Material

/-- Per-axis inverse direction component of cube.rs: `1.0 / d` when the
component is nonzero, `f32::INFINITY` otherwise. -/
def invComp (d : ℚ) : F :=
  if d ≠ 0 then F.fin (1 / d) else F.pinf

/-- Slab test from cube.rs `Cube::ray_intersect`, line by line: per-axis
entry/exit candidates t1..t6, running max of per-axis minima (`tmin`),
running min of per-axis maxima (`tmax`), rejection when `tmax < 0.0 ||
tmin > tmax`, selection `if tmin < 0.0 { tmax } else { tmin }`, final
rejection of a negative distance. -/
def Cube.rayIntersect (c : Cube) (rayOrigin rayDirection : Vec3) : Intersect :=
  let invDirX := invComp rayDirection.x
  let invDirY := invComp rayDirection.y
  let invDirZ := invComp rayDirection.z
  let t1 := fmulQ (c.min.x - rayOrigin.x) invDirX
  let t2 := fmulQ (c.max.x - rayOrigin.x) invDirX
  let t3 := fmulQ (c.min.y - rayOrigin.y) invDirY
  let t4 := fmulQ (c.max.y - rayOrigin.y) invDirY
  let t5 := fmulQ (c.min.z - rayOrigin.z) invDirZ
  let t6 := fmulQ (c.max.z - rayOrigin.z) invDirZ
  let tmin := fmax (fmax (fmin t1 t2) (fmin t3 t4)) (fmin t5 t6)
  let tmax := fmin (fmin (fmax t1 t2) (fmax t3 t4)) (fmax t5 t6)
  if flt tmax (F.fin 0) || flt tmax tmin then Intersect.empty
  else
    let distance := if flt tmin (F.fin 0) then tmax else tmin
    if flt distance (F.fin 0) then Intersect.empty
    else Intersect.new distance c.material

/-- Non-negativity on extended values: true for +∞ and for finite values
at least 0; false for -∞ and NaN. -/
def fnonneg : F → Bool
  | F.fin q => decide (0 ≤ q)
  | F.pinf => true
  | F.ninf => false
  | F.nan => false

/-- The slab test as the claim words it: same per-axis entry/exit
parameters (a zero direction component producing an infinite inverse),
entry t as the max of per-axis minima, exit t as the min of per-axis
maxima, no hit exactly when exit t < 0, entry t > exit t, or the selected
distance is negative, and otherwise a hit at distance equal to entry t if
entry t is non-negative, else exit t. -/
def slabSpec (c : Cube) (rayOrigin rayDirection : Vec3) : Intersect :=
  let invDirX := invComp rayDirection.x
  let invDirY := invComp rayDirection.y
  let invDirZ := invComp rayDirection.z
  let t1 := fmulQ (c.min.x - rayOrigin.x) invDirX
  let t2 := fmulQ (c.max.x - rayOrigin.x) invDirX
  let t3 := fmulQ (c.min.y - rayOrigin.y) invDirY
  let t4 := fmulQ (c.max.y - rayOrigin.y) invDirY
  let t5 := fmulQ (c.min.z - rayOrigin.z) invDirZ
  let t6 := fmulQ (c.max.z - rayOrigin.z) invDirZ
  let entryT := fmax (fmax (fmin t1 t2) (fmin t3 t4)) (fmin t5 t6)
  let exitT := fmin (fmin (fmax t1 t2) (fmax t3 t4)) (fmax t5 t6)
  let selected := if fnonneg entryT then entryT else exitT
  if flt exitT (F.fin 0) || flt exitT entryT || flt selected (F.fin 0) then
    Intersect.empty
  else Intersect.new selected c.material

end Slab

/-- Determinant `a = edge1 · (direction × edge2)` of Möller–Trumbore, as
computed by obj_loader.rs. -/
def mtA (tri : Triangle) (ray : Ray) : ℚ :=
  (tri.v1 - tri.v0).dot (ray.direction.cross (tri.v2 - tri.v0))

/-- Barycentric `u = f · (s · h)` of Möller–Trumbore. -/
def mtU (tri : Triangle) (ray : Ray) : ℚ :=
  (1 / mtA tri ray) * (ray.origin - tri.v0).dot (ray.direction.cross (tri.v2 - tri.v0))

/-- Barycentric `v = f · (direction · q)` of Möller–Trumbore. -/
def mtV (tri : Triangle) (ray : Ray) : ℚ :=
  (1 / mtA tri ray) * ray.direction.dot ((ray.origin - tri.v0).cross (tri.v1 - tri.v0))

/-- Hit distance `t = f · (edge2 · q)` of Möller–Trumbore. -/
def mtT (tri : Triangle) (ray : Ray) : ℚ :=
  (1 / mtA tri ray) * (tri.v2 - tri.v0).dot ((ray.origin - tri.v0).cross (tri.v1 - tri.v0))

/-- A box whose observable behaviour is a constant hit — used to build the
concrete scenes that instantiate theorems with hypotheses. -/
def cubeConst (ix : Intersection) : CubeS := ⟨fun _ => some ix⟩

/-- Concrete sun for instantiations. -/
def sun0 : DirectionalLight := ⟨⟨0, -1, 0⟩, ⟨1, 1, 1⟩, 1⟩

/-- Concrete black sky sampler. -/
def sky0 : Skybox := ⟨fun _ _ => Color.black⟩

/-- Concrete sky sampler that reads back the ray's x direction component —
distinguishes camera rays of distinct u coordinates. -/
def skyX : Skybox := ⟨fun ray _ => ⟨ray.direction.x, 0, 0⟩⟩

/-- Concrete camera whose ray direction encodes the (u, v) sample
coordinates. -/
def camUV : Camera := ⟨fun u v => ⟨⟨0, 0, 0⟩, ⟨u, v, 1⟩⟩⟩

/-- Concrete empty scene with a black sky. -/
def scene0 : Scene := ⟨[], [], sun0, [], sky0⟩

/-- Concrete empty scene with the x-reading sky. -/
def sceneSky : Scene := ⟨[], [], sun0, [], skyX⟩

/-- Concrete plain opaque material: no texture, no reflectivity, no
transparency, no emission. -/
def mat0 : Material := ⟨⟨1, 0, 0⟩, none, 0, 0, 1, Color.black, 0, 0⟩

/-- Concrete hit record with material `mat0`. -/
def ix0 : Intersection := ⟨1, ⟨0, 0, 0⟩, ⟨0, 1, 0⟩, mat0, 0, 0⟩

/-- Concrete one-box scene whose every query hits `ix0`. -/
def sceneHit : Scene := ⟨[cubeConst ix0], [], sun0, [], sky0⟩

/-- Concrete transparent material of refractive index 1/2 (eta = 2), for the
total-internal-reflection branch. -/
def matTIR : Material := ⟨⟨1, 1, 1⟩, none, 0, 1/2, 1/2, Color.black, 0, 0⟩

/-- Concrete hit record with material `matTIR`. -/
def ixTIR : Intersection := ⟨1, ⟨0, 0, 0⟩, ⟨0, 1, 0⟩, matTIR, 0, 0⟩

/-- Concrete scene whose every query hits `ixTIR`. -/
def sceneTIR : Scene := ⟨[cubeConst ixTIR], [], sun0, [], sky0⟩

/-- Concrete transparent material of refractive index 1 (eta = 1), for the
refracting branch. -/
def matRefr : Material := ⟨⟨1, 1, 1⟩, none, 0, 1/2, 1, Color.black, 0, 0⟩

/-- Concrete hit record with material `matRefr` and normal (0,0,1). -/
def ixRefr : Intersection := ⟨1, ⟨0, 0, 0⟩, ⟨0, 0, 1⟩, matRefr, 0, 0⟩

/-- Concrete scene whose every query hits `ixRefr`. -/
def sceneRefr : Scene := ⟨[cubeConst ixRefr], [], sun0, [], sky0⟩

/-- Concrete ray along -z from z = 5. -/
def rayZ : Ray := ⟨⟨0, 0, 5⟩, ⟨0, 0, -1⟩⟩

/-- Concrete ray along +x. -/
def rayX : Ray := ⟨⟨0, 0, 5⟩, ⟨1, 0, 0⟩⟩

/-- Concrete degenerate (zero-area) triangle: collinear vertices. -/
def triDeg : Triangle := ⟨⟨0, 0, 0⟩, ⟨1, 0, 0⟩, ⟨2, 0, 0⟩, ⟨0, 0, 0⟩⟩

/-- Concrete unit-radius box at the origin for the slab test. -/
def cubeC9 : Slab.Cube := ⟨⟨-1, -1, -1⟩, ⟨1, 1, 1⟩, ⟨⟨0, 0, 0⟩⟩⟩

@[simp] lemma Vec3_sub_x (a b : Vec3) : (a - b).x = a.x - b.x := rfl

@[simp] lemma Vec3_sub_y (a b : Vec3) : (a - b).y = a.y - b.y := rfl

@[simp] lemma Vec3_sub_z (a b : Vec3) : (a - b).z = a.z - b.z := rfl

@[simp] lemma Vec3_neg_x (a : Vec3) : (-a).x = -a.x := rfl

@[simp] lemma Vec3_neg_y (a : Vec3) : (-a).y = -a.y := rfl

@[simp] lemma Vec3_neg_z (a : Vec3) : (-a).z = -a.z := rfl

namespace Slab

lemma fmin_eq_nan_iff (a b : F) : fmin a b = F.nan ↔ a = F.nan ∧ b = F.nan := by
  cases a <;> cases b <;> simp [fmin]

lemma fmax_eq_nan_iff (a b : F) : fmax a b = F.nan ↔ a = F.nan ∧ b = F.nan := by
  cases a <;> cases b <;> simp [fmax]

lemma sel_eq (tmin tmax : F) (h : tmin = F.nan → tmax = F.nan) :
    (if flt tmin (F.fin 0) then tmax else tmin)
      = (if fnonneg tmin then tmin else tmax) := by
  cases tmin with
  | nan => simp [flt, fnonneg, h rfl]
  | ninf => simp [flt, fnonneg]
  | pinf => simp [flt, fnonneg]
  | fin q =>
    rcases lt_or_le q 0 with hq | hq
    · simp [flt, fnonneg, hq, not_le.mpr hq]
    · simp [flt, fnonneg, not_lt.mpr hq, hq]

lemma guard_sel (m : Material) (tmin tmax : F) (h : tmin = F.nan → tmax = F.nan) :
    (if flt tmax (F.fin 0) || flt tmax tmin then Intersect.empty
     else
       if flt (if flt tmin (F.fin 0) then tmax else tmin) (F.fin 0) then
         Intersect.empty
       else Intersect.new (if flt tmin (F.fin 0) then tmax else tmin) m)
    = (if flt tmax (F.fin 0) || flt tmax tmin
          || flt (if fnonneg tmin then tmin else tmax) (F.fin 0) then
         Intersect.empty
       else Intersect.new (if fnonneg tmin then tmin else tmax) m) := by
  rw [sel_eq tmin tmax h]
  cases hg : (flt tmax (F.fin 0) || flt tmax tmin) <;> simp [hg]

end Slab

/-- Claim C3: for every axis-aligned box and every ray, the slab intersection
computes per-axis entry/exit parameters (a zero direction component producing
an infinite inverse rather than a division fault), takes entry t as the max
of per-axis minima and exit t as the min of per-axis maxima, reports no hit
exactly when exit t < 0, entry t > exit t, or the selected distance is
negative, and otherwise returns distance equal to entry t if entry t is
non-negative, else exit t. -/
theorem cube_slab_test_charn (c : Slab.Cube) (o d : Vec3) :
    Slab.Cube.rayIntersect c o d = Slab.slabSpec c o d := by
  simp only [Slab.Cube.rayIntersect, Slab.slabSpec]
  apply Slab.guard_sel
  intro h
  simp only [Slab.fmax_eq_nan_iff, Slab.fmin_eq_nan_iff] at h
  obtain ⟨⟨⟨h1, h2⟩, h3, h4⟩, h5, h6⟩ := h
  rw [h1, h2, h3, h4, h5, h6]
  rfl

namespace Slab

lemma fmulQ_fin (c q : ℚ) : fmulQ c (F.fin q) = F.fin (c * q) := rfl

lemma fmax_fin (a b : ℚ) : fmax (F.fin a) (F.fin b) = F.fin (max a b) := rfl

lemma fmin_pinf_fin (q : ℚ) : fmin F.pinf (F.fin q) = F.fin q := rfl

lemma fmin_fin_pinf (q : ℚ) : fmin (F.fin q) F.pinf = F.fin q := rfl

lemma fmin_ninf_left (b : F) : fmin F.ninf b = F.ninf := by cases b <;> rfl

lemma fmin_ninf_right (a : F) : fmin a F.ninf = F.ninf := by cases a <;> rfl

lemma fmax_pinf_left (b : F) : fmax F.pinf b = F.pinf := by cases b <;> rfl

lemma fmax_pinf_right (a : F) : fmax a F.pinf = F.pinf := by cases a <;> rfl

lemma flt_fmin_pinf (A B : F)
    (h : (∃ q, A = F.fin q) ∨ A = F.ninf ∨ (∃ q, B = F.fin q) ∨ B = F.ninf) :
    flt (fmin A B) F.pinf = true := by
  rcases h with ⟨q, rfl⟩ | rfl | ⟨q, rfl⟩ | rfl
  · cases B <;> simp [fmin, flt]
  · cases B <;> simp [fmin, flt]
  · cases A <;> simp [fmin, flt]
  · cases A <;> simp [fmin, flt]

lemma fmin_fin_left_shape (M : ℚ) (Y : F) :
    (∃ q, fmin (F.fin M) Y = F.fin q) ∨ fmin (F.fin M) Y = F.ninf := by
  cases Y <;> simp [fmin]

lemma fmin_fin_right_shape (M : ℚ) (Y : F) :
    (∃ q, fmin Y (F.fin M) = F.fin q) ∨ fmin Y (F.fin M) = F.ninf := by
  cases Y <;> simp [fmin]

lemma ite_guard_empty (X : Intersect) (b1 b2 : Bool) (h : b1 = true ∨ b2 = true) :
    (if b1 || b2 then Intersect.empty else X) = Intersect.empty := by
  rcases h with h | h <;> simp [h]

end Slab

/-- Claim C9 counterexample: a ray whose direction has an exactly-zero x
component is not classified as "no intersection" by the slab test — cast
along +z through the origin-centred box from (0, 0, -5) it reports a hit at
distance 4.  This refutes the claim that a zero direction component in the
box slab test is classified as no intersection. -/
theorem zero_direction_component_counterexample :
    (⟨(0 : ℚ), 0, 1⟩ : Vec3).x = 0 ∧
    Slab.Cube.rayIntersect cubeC9 ⟨0, 0, -5⟩ ⟨0, 0, 1⟩
      = Slab.Intersect.new (Slab.F.fin 4) ⟨⟨0, 0, 0⟩⟩ ∧
    (Slab.Cube.rayIntersect cubeC9 ⟨0, 0, -5⟩ ⟨0, 0, 1⟩).isIntersecting = true := by
  refine ⟨rfl, ?_, ?_⟩ <;>
    norm_num [Slab.Cube.rayIntersect, Slab.invComp, Slab.fmulQ, Slab.fmin, Slab.fmax,
      Slab.flt, cubeC9, Slab.Intersect.new]

namespace Slab

lemma flt_fmin_fmin_fin_left (M : ℚ) (Y B : F) :
    flt (fmin (fmin (F.fin M) Y) B) F.pinf = true := by
  cases Y <;> cases B <;> simp [fmin, flt]

lemma flt_fmin_fmin_fin_mid (M : ℚ) (X B : F) :
    flt (fmin (fmin X (F.fin M)) B) F.pinf = true := by
  cases X <;> cases B <;> simp [fmin, flt]

end Slab

/-- Claim C9 as amended: a ray parallel to a triangle's plane (|a| below the
1e-5 guard, which covers zero-area triangles) is classified as no
intersection; the slab test substitutes +infinity for the inverse of a zero
direction component (computing 1/d only for nonzero d) and classifies such a
ray by the ordinary slab comparisons — in particular it reports no
intersection whenever the ray origin lies outside the zero-component axis'
slab of a well-formed box and some other axis bounds the ray — but a ray
with a zero direction component may still legitimately hit the box, and no
intersection routine ever divides by zero. -/
theorem parallel_and_zero_direction_guards :
    (∀ (tri : Triangle) (ray : Ray),
        |mtA tri ray| < 1/100000 → Triangle.intersect tri ray = none)
    ∧ (Slab.invComp 0 = Slab.F.pinf ∧
        ∀ q : ℚ, q ≠ 0 → Slab.invComp q = Slab.F.fin (1 / q))
    ∧ (∀ (c : Slab.Cube) (o d : Vec3), c.min.x ≤ c.max.x → d.x = 0 →
        (o.x < c.min.x ∨ c.max.x < o.x) → (d.y ≠ 0 ∨ d.z ≠ 0) →
        Slab.Cube.rayIntersect c o d = Slab.Intersect.empty)
    ∧ (∀ (c : Slab.Cube) (o d : Vec3), c.min.y ≤ c.max.y → d.y = 0 →
        (o.y < c.min.y ∨ c.max.y < o.y) → (d.x ≠ 0 ∨ d.z ≠ 0) →
        Slab.Cube.rayIntersect c o d = Slab.Intersect.empty)
    ∧ (∀ (c : Slab.Cube) (o d : Vec3), c.min.z ≤ c.max.z → d.z = 0 →
        (o.z < c.min.z ∨ c.max.z < o.z) → (d.x ≠ 0 ∨ d.y ≠ 0) →
        Slab.Cube.rayIntersect c o d = Slab.Intersect.empty) := by
  refine ⟨?_, ⟨by norm_num [Slab.invComp], fun q hq => by simp [Slab.invComp, hq]⟩,
    ?_, ?_, ?_⟩
  · intro tri ray h
    simp only [mtA] at h
    simp only [Triangle.intersect]
    rw [if_pos h]
  · intro c o d hwf hdx hout hoth
    simp only [Slab.Cube.rayIntersect, hdx]
    rw [show Slab.invComp 0 = Slab.F.pinf by norm_num [Slab.invComp]]
    rcases hout with hlt | hgt
    · have e1 : Slab.fmulQ (c.min.x - o.x) Slab.F.pinf = Slab.F.pinf := by
        have hp : (0:ℚ) < c.min.x - o.x := by linarith
        simp [Slab.fmulQ, hp]
      have e2 : Slab.fmulQ (c.max.x - o.x) Slab.F.pinf = Slab.F.pinf := by
        have hp : (0:ℚ) < c.max.x - o.x := by linarith
        simp [Slab.fmulQ, hp]
      rw [e1, e2]
      rw [show Slab.fmin Slab.F.pinf Slab.F.pinf = Slab.F.pinf from rfl,
          show Slab.fmax Slab.F.pinf Slab.F.pinf = Slab.F.pinf from rfl,
          Slab.fmax_pinf_left, Slab.fmax_pinf_left]
      rcases hoth with hy | hz
      · rw [show Slab.invComp d.y = Slab.F.fin (1 / d.y) by simp [Slab.invComp, hy]]
        simp only [Slab.fmulQ_fin, Slab.fmax_fin, Slab.fmin_pinf_fin]
        apply Slab.ite_guard_empty
        right
        exact Slab.flt_fmin_pinf _ _ (Or.inl ⟨_, rfl⟩)
      · rw [show Slab.invComp d.z = Slab.F.fin (1 / d.z) by simp [Slab.invComp, hz]]
        simp only [Slab.fmulQ_fin, Slab.fmax_fin]
        apply Slab.ite_guard_empty
        right
        exact Slab.flt_fmin_pinf _ _ (Or.inr (Or.inr (Or.inl ⟨_, rfl⟩)))
    · have e1 : Slab.fmulQ (c.min.x - o.x) Slab.F.pinf = Slab.F.ninf := by
        have hp : c.min.x - o.x < 0 := by linarith
        simp [Slab.fmulQ, hp, not_lt.mpr (le_of_lt hp)]
      have e2 : Slab.fmulQ (c.max.x - o.x) Slab.F.pinf = Slab.F.ninf := by
        have hp : c.max.x - o.x < 0 := by linarith
        simp [Slab.fmulQ, hp, not_lt.mpr (le_of_lt hp)]
      rw [e1, e2]
      rw [show Slab.fmax Slab.F.ninf Slab.F.ninf = Slab.F.ninf from rfl,
          Slab.fmin_ninf_left, Slab.fmin_ninf_left]
      apply Slab.ite_guard_empty
      left
      rfl
  · intro c o d hwf hdy hout hoth
    simp only [Slab.Cube.rayIntersect, hdy]
    rw [show Slab.invComp 0 = Slab.F.pinf by norm_num [Slab.invComp]]
    rcases hout with hlt | hgt
    · have e3 : Slab.fmulQ (c.min.y - o.y) Slab.F.pinf = Slab.F.pinf := by
        have hp : (0:ℚ) < c.min.y - o.y := by linarith
        simp [Slab.fmulQ, hp]
      have e4 : Slab.fmulQ (c.max.y - o.y) Slab.F.pinf = Slab.F.pinf := by
        have hp : (0:ℚ) < c.max.y - o.y := by linarith
        simp [Slab.fmulQ, hp]
      rw [e3, e4]
      rw [show Slab.fmin Slab.F.pinf Slab.F.pinf = Slab.F.pinf from rfl,
          show Slab.fmax Slab.F.pinf Slab.F.pinf = Slab.F.pinf from rfl,
          Slab.fmax_pinf_right, Slab.fmax_pinf_left]
      rcases hoth with hx | hz
      · rw [show Slab.invComp d.x = Slab.F.fin (1 / d.x) by simp [Slab.invComp, hx]]
        simp only [Slab.fmulQ_fin, Slab.fmax_fin, Slab.fmin_fin_pinf]
        apply Slab.ite_guard_empty
        right
        exact Slab.flt_fmin_pinf _ _ (Or.inl ⟨_, rfl⟩)
      · rw [show Slab.invComp d.z = Slab.F.fin (1 / d.z) by simp [Slab.invComp, hz]]
        simp only [Slab.fmulQ_fin, Slab.fmax_fin]
        apply Slab.ite_guard_empty
        right
        exact Slab.flt_fmin_pinf _ _ (Or.inr (Or.inr (Or.inl ⟨_, rfl⟩)))
    · have e3 : Slab.fmulQ (c.min.y - o.y) Slab.F.pinf = Slab.F.ninf := by
        have hp : c.min.y - o.y < 0 := by linarith
        simp [Slab.fmulQ, hp, not_lt.mpr (le_of_lt hp)]
      have e4 : Slab.fmulQ (c.max.y - o.y) Slab.F.pinf = Slab.F.ninf := by
        have hp : c.max.y - o.y < 0 := by linarith
        simp [Slab.fmulQ, hp, not_lt.mpr (le_of_lt hp)]
      rw [e3, e4]
      rw [show Slab.fmax Slab.F.ninf Slab.F.ninf = Slab.F.ninf from rfl,
          Slab.fmin_ninf_right, Slab.fmin_ninf_left]
      apply Slab.ite_guard_empty
      left
      rfl
  · intro c o d hwf hdz hout hoth
    simp only [Slab.Cube.rayIntersect, hdz]
    rw [show Slab.invComp 0 = Slab.F.pinf by norm_num [Slab.invComp]]
    rcases hout with hlt | hgt
    · have e5 : Slab.fmulQ (c.min.z - o.z) Slab.F.pinf = Slab.F.pinf := by
        have hp : (0:ℚ) < c.min.z - o.z := by linarith
        simp [Slab.fmulQ, hp]
      have e6 : Slab.fmulQ (c.max.z - o.z) Slab.F.pinf = Slab.F.pinf := by
        have hp : (0:ℚ) < c.max.z - o.z := by linarith
        simp [Slab.fmulQ, hp]
      rw [e5, e6]
      rw [show Slab.fmin Slab.F.pinf Slab.F.pinf = Slab.F.pinf from rfl,
          show Slab.fmax Slab.F.pinf Slab.F.pinf = Slab.F.pinf from rfl,
          Slab.fmax_pinf_right]
      rcases hoth with hx | hy
      · rw [show Slab.invComp d.x = Slab.F.fin (1 / d.x) by simp [Slab.invComp, hx]]
        simp only [Slab.fmulQ_fin, Slab.fmax_fin]
        apply Slab.ite_guard_empty
        right
        exact Slab.flt_fmin_fmin_fin_left _ _ _
      · rw [show Slab.invComp d.y = Slab.F.fin (1 / d.y) by simp [Slab.invComp, hy]]
        simp only [Slab.fmulQ_fin, Slab.fmax_fin]
        apply Slab.ite_guard_empty
        right
        exact Slab.flt_fmin_fmin_fin_mid _ _ _
    · have e5 : Slab.fmulQ (c.min.z - o.z) Slab.F.pinf = Slab.F.ninf := by
        have hp : c.min.z - o.z < 0 := by linarith
        simp [Slab.fmulQ, hp, not_lt.mpr (le_of_lt hp)]
      have e6 : Slab.fmulQ (c.max.z - o.z) Slab.F.pinf = Slab.F.ninf := by
        have hp : c.max.z - o.z < 0 := by linarith
        simp [Slab.fmulQ, hp, not_lt.mpr (le_of_lt hp)]
      rw [e5, e6]
      rw [show Slab.fmax Slab.F.ninf Slab.F.ninf = Slab.F.ninf from rfl,
          Slab.fmin_ninf_right]
      apply Slab.ite_guard_empty
      left
      rfl

/-- Witness for the amended C9 at concrete inputs: the degenerate triangle
`triDeg` misses the -z ray, and the box `cubeC9` reports no intersection for
a +y ray (zero x component) whose origin lies to the right of the box. -/
theorem parallel_and_zero_direction_guards_witness :
    Triangle.intersect triDeg rayZ = none ∧
    Slab.Cube.rayIntersect cubeC9 ⟨5, 0, 0⟩ ⟨0, 1, 0⟩ = Slab.Intersect.empty := by
  constructor
  · exact parallel_and_zero_direction_guards.1 triDeg rayZ
      (by norm_num [mtA, triDeg, rayZ, Vec3.dot, Vec3.cross])
  · exact parallel_and_zero_direction_guards.2.2.1 cubeC9 ⟨5, 0, 0⟩ ⟨0, 1, 0⟩
      (by norm_num [cubeC9]) rfl (Or.inr (by norm_num [cubeC9]))
      (Or.inl (by norm_num))

/-- Claim C4: for every triangle and ray, Möller–Trumbore reports no hit when
|a| < 1e-5 (which covers degenerate zero-area triangles), when barycentric u
lies outside [0,1], when v < 0 or u+v > 1, or when t does not exceed the
small positive epsilon; otherwise it returns the hit distance
t = f·(edge2·q) with barycentric u,v ≥ 0 and u+v ≤ 1. -/
theorem moller_trumbore_charn :
    (∀ (tri : Triangle) (ray : Ray) (tv : ℚ),
      Triangle.intersect tri ray = some tv ↔
        1/100000 ≤ |mtA tri ray| ∧ 0 ≤ mtU tri ray ∧ mtU tri ray ≤ 1 ∧
        0 ≤ mtV tri ray ∧ mtU tri ray + mtV tri ray ≤ 1 ∧
        1/1000 < mtT tri ray ∧ tv = mtT tri ray)
    ∧ (∀ (tri : Triangle) (ray : Ray),
        (tri.v1 - tri.v0).cross (tri.v2 - tri.v0) = Vec3.zero →
        Triangle.intersect tri ray = none) := by
  constructor
  · intro tri ray tv
    simp only [Triangle.intersect, mtA, mtU, mtV, mtT]
    split_ifs with h1 h2 h3 h4
    · constructor
      · intro hc; exact hc.elim
      · rintro ⟨hA, -⟩; exact absurd hA (not_le.mpr h1)
    · constructor
      · intro hc; exact hc.elim
      · rintro ⟨-, hu0, hu1, -⟩
        rcases h2 with h | h
        · exact absurd hu0 (not_le.mpr h)
        · exact absurd hu1 (not_le.mpr h)
    · constructor
      · intro hc; exact hc.elim
      · rintro ⟨-, -, -, hv0, huv, -⟩
        rcases h3 with h | h
        · exact absurd hv0 (not_le.mpr h)
        · exact absurd huv (not_le.mpr h)
    · constructor
      · intro hc
        injection hc with hc
        subst hc
        push_neg at h2 h3
        exact ⟨not_lt.mp h1, h2.1, h2.2, h3.1, h3.2, h4, rfl⟩
      · rintro ⟨-, -, -, -, -, -, rfl⟩; rfl
    · constructor
      · intro hc; exact hc.elim
      · rintro ⟨-, -, -, -, -, ht, -⟩; exact absurd ht h4
  · intro tri ray h
    have h1 := congrArg Vec3.x h
    have h2 := congrArg Vec3.y h
    have h3 := congrArg Vec3.z h
    simp only [Vec3.cross, Vec3.zero, Vec3_sub_x, Vec3_sub_y, Vec3_sub_z] at h1 h2 h3
    have ha : (tri.v1 - tri.v0).dot (ray.direction.cross (tri.v2 - tri.v0)) = 0 := by
      simp only [Vec3.dot, Vec3.cross, Vec3_sub_x, Vec3_sub_y, Vec3_sub_z]
      linear_combination (-ray.direction.x) * h1 + (-ray.direction.y) * h2 +
        (-ray.direction.z) * h3
    simp only [Triangle.intersect]
    rw [if_pos (by rw [ha]; norm_num)]

/-- Witness for C4 at a concrete input: the degenerate collinear triangle
`triDeg` reports no hit against the -z ray. -/
theorem moller_trumbore_charn_witness :
    Triangle.intersect triDeg rayZ = none :=
  moller_trumbore_charn.2 triDeg rayZ (by simp [triDeg, Vec3.cross, Vec3.zero])

lemma traceMeter_levels_le (scene : Scene) :
    ∀ (fuel : ℕ) (ray : Ray), (traceMeter scene fuel ray).2 ≤ fuel := by
  intro fuel
  induction fuel with
  | zero => intro ray; simp [traceMeter]
  | succ n ih =>
    intro ray
    simp only [traceMeter]
    cases hint : Scene.intersect scene ray with
    | none => dsimp only; omega
    | some ix =>
      dsimp only
      split_ifs with hem
      · simp
      all_goals
        (dsimp only;
         rw [Nat.add_comm n 1];
         refine Nat.add_le_add_left (max_le ?_ ?_) 1 <;>
           first
           | exact ih _
           | exact Nat.zero_le n
           | (split <;> (first | exact ih _ | exact Nat.zero_le n)))

/-- Claim C1: for every scene, ray, and recursion depth d, trace_ray called
with d at or above the depth ceiling MAX_DEPTH = 5 returns black with zero
scene queries; along any recursive chain the number of shading levels that
pass the depth guard never exceeds the remaining-bounce budget, so a chain
started at depth 0 evaluates at most 5 levels and terminates (the embedding
is a total function) even in a mirror-facing-mirror configuration. -/
theorem trace_ray_depth_ceiling :
    (∀ (ray : Ray) (scene : Scene) (d : ℤ), MAX_DEPTH ≤ d →
        traceRay ray scene d = Color.black ∧ traceMeterAt ray scene d = (0, 0))
    ∧ (∀ (ray : Ray) (scene : Scene) (d : ℤ),
        (traceMeterAt ray scene d).2 ≤ (MAX_DEPTH - d).toNat)
    ∧ (∀ (ray : Ray) (scene : Scene), (traceMeterAt ray scene 0).2 ≤ 5) := by
  have hz : ∀ d : ℤ, MAX_DEPTH ≤ d → (MAX_DEPTH - d).toNat = 0 := by
    intro d hd
    simp only [MAX_DEPTH] at hd ⊢
    omega
  refine ⟨?_, ?_, ?_⟩
  · intro ray scene d hd
    rw [traceRay, traceMeterAt, hz d hd]
    exact ⟨rfl, rfl⟩
  · intro ray scene d
    rw [traceMeterAt]
    exact traceMeter_levels_le scene _ ray
  · intro ray scene
    rw [traceMeterAt]
    refine le_trans (traceMeter_levels_le scene _ ray) ?_
    simp [MAX_DEPTH]

/-- Witness for C1 at a concrete input: at depth 7 (above the ceiling) the
shading of a concrete ray in a concrete scene is black with zero scene
queries and zero shading levels. -/
theorem trace_ray_depth_ceiling_witness :
    traceRay rayZ scene0 7 = Color.black ∧ traceMeterAt rayZ scene0 7 = (0, 0) :=
  trace_ray_depth_ceiling.1 rayZ scene0 7 (by decide)
lemma applyWrites_append (buf : List RColor) (l1 l2 : List (ℕ × RColor)) :
    applyWrites buf (l1 ++ l2) = applyWrites (applyWrites buf l1) l2 :=
  List.foldl_append _ _ _ _

lemma foldl_applyWrites (f : ℕ → List (ℕ × RColor)) :
    ∀ (rows : List ℕ) (buf : List RColor),
      rows.foldl (fun b sy => applyWrites b (f sy)) buf
        = applyWrites buf (rows.flatMap f) := by
  intro rows
  induction rows with
  | nil => intro buf; rfl
  | cons a rest ih =>
    intro buf
    simp only [List.foldl_cons, List.flatMap_cons, applyWrites_append]
    exact ih _

lemma renderSingle_eq_applyWrites (scene : Scene) (cam : Camera) (buf : List RColor)
    (w h sw sh k : ℕ) :
    renderSingleThreaded scene cam buf w h sw sh k
      = applyWrites buf (renderWrites scene cam w h sw sh k) :=
  foldl_applyWrites _ _ _

lemma bands_concat (r sh : ℕ) : ∀ n : ℕ,
    (List.range n).flatMap (fun t => List.range' (t * r) (min ((t + 1) * r) sh - t * r))
      = List.range' 0 (min (n * r) sh) := by
  intro n
  induction n with
  | zero => simp
  | succ m ih =>
    rw [List.range_succ, List.flatMap_append, ih]
    simp only [List.flatMap_cons, List.flatMap_nil, List.append_nil]
    have hmono : m * r ≤ (m + 1) * r := Nat.mul_le_mul_right r (Nat.le_succ m)
    rcases le_or_lt sh (m * r) with hle | hlt
    · rw [show min (m * r) sh = sh by omega, show min ((m + 1) * r) sh - m * r = 0 by omega,
        show min ((m + 1) * r) sh = sh by omega]
      simp
    · rw [show min (m * r) sh = m * r by omega]
      have happ := List.range'_append 0 (m * r) (min ((m + 1) * r) sh - m * r) 1
      simp only [one_mul, zero_add] at happ
      rw [happ, show min ((m + 1) * r) sh - m * r + m * r = min ((m + 1) * r) sh by omega]

lemma renderThreaded_eq_applyWrites (scene : Scene) (cam : Camera) (buf : List RColor)
    (w h sw sh k : ℕ) :
    renderThreaded scene cam buf w h sw sh k
      = applyWrites buf (renderWrites scene cam w h sw sh k) := by
  rw [renderThreaded]
  rw [foldl_applyWrites
    (fun t => bandWrites scene cam w h sw sh k (t * ((sh + 4 - 1) / 4))
      (min ((t + 1) * ((sh + 4 - 1) / 4)) sh))
    (List.range 4) buf]
  simp only [bandWrites]
  rw [← List.flatMap_assoc, bands_concat ((sh + 4 - 1) / 4) sh 4,
    show min (4 * ((sh + 4 - 1) / 4)) sh = sh by omega,
    ← List.range_eq_range']
  rfl

/-- Claim C2: for every scene, camera, buffer, width, height and down-scale
factor, the pixel buffer produced by the threaded rendering path (4 workers
over contiguous, disjoint, exhaustive bands of logical rows, accumulating
(pixel index, color) results privately and merging only after joining) is
identical to the buffer produced by the single-threaded path. -/
theorem render_threaded_eq_single_threaded (scene : Scene) (cam : Camera)
    (buf : List RColor) (w h k : ℕ) :
    renderScene scene cam buf w h k true = renderScene scene cam buf w h k false := by
  simp only [renderScene]
  rw [renderThreaded_eq_applyWrites, renderSingle_eq_applyWrites]
  simp
lemma applyWrites_length : ∀ (ws : List (ℕ × RColor)) (buf : List RColor),
    (applyWrites buf ws).length = buf.length := by
  intro ws
  induction ws with
  | nil => intro buf; rfl
  | cons p rest ih =>
    intro buf
    exact (ih (buf.set p.1 p.2)).trans (List.length_set buf p.1 p.2)

lemma applyWrites_getD_not_mem : ∀ (ws : List (ℕ × RColor)) (buf : List RColor)
    (i : ℕ) (d : RColor), (∀ p ∈ ws, p.1 ≠ i) →
    (applyWrites buf ws).getD i d = buf.getD i d := by
  intro ws
  induction ws with
  | nil => intro buf i d _; rfl
  | cons p rest ih =>
    intro buf i d h
    rw [show applyWrites buf (p :: rest) = applyWrites (buf.set p.1 p.2) rest from rfl,
      ih _ _ _ (fun q hq => h q (List.mem_cons_of_mem _ hq))]
    simp [List.getD_eq_getElem?_getD,
      List.getElem?_set_ne (h p (List.mem_cons_self p rest))]

lemma applyWrites_getD_all_eq : ∀ (ws : List (ℕ × RColor)) (buf : List RColor)
    (i : ℕ) (d c : RColor), (∃ p ∈ ws, p.1 = i) → (∀ p ∈ ws, p.1 = i → p.2 = c) →
    i < buf.length → (applyWrites buf ws).getD i d = c := by
  intro ws
  induction ws with
  | nil =>
    rintro buf i d c ⟨p, hp, -⟩
    exact absurd hp (List.not_mem_nil p)
  | cons p rest ih =>
    rintro buf i d c hex hall hlen
    rw [show applyWrites buf (p :: rest) = applyWrites (buf.set p.1 p.2) rest from rfl]
    by_cases hrest : ∃ q ∈ rest, q.1 = i
    · exact ih _ _ _ _ hrest (fun q hq hqi => hall q (List.mem_cons_of_mem _ hq) hqi)
        (by rw [List.length_set]; exact hlen)
    · push_neg at hrest
      have hpi : p.1 = i := by
        rcases hex with ⟨q, hq, hqi⟩
        rcases List.mem_cons.mp hq with rfl | hq'
        · exact hqi
        · exact absurd hqi (hrest q hq')
      rw [applyWrites_getD_not_mem rest _ i d hrest, hpi,
        hall p (List.mem_cons_self p rest) hpi]
      simp [List.getD_eq_getElem?_getD, List.getElem?_set_self hlen]

lemma mem_renderWrites {scene : Scene} {cam : Camera} {w h sw sh k : ℕ}
    {p : ℕ × RColor} :
    p ∈ renderWrites scene cam w h sw sh k ↔
      ∃ sy, sy < sh ∧ ∃ sx, sx < sw ∧ ∃ dy, dy < k ∧ ∃ dx, dx < k ∧
        sx * k + dx < w ∧ sy * k + dy < h ∧
        p = ((sy * k + dy) * w + (sx * k + dx), sampleColor scene cam sw sh sx sy) := by
  simp only [renderWrites, rowWrites, blockWrites, List.mem_flatMap, List.mem_filterMap,
    List.mem_range, Option.ite_none_right_eq_some, Option.some.injEq]
  constructor
  · rintro ⟨sy, hsy, sx, hsx, dy, hdy, dx, hdx, ⟨hxw, hyh⟩, hp⟩
    exact ⟨sy, hsy, sx, hsx, dy, hdy, dx, hdx, hxw, hyh, hp.symm⟩
  · rintro ⟨sy, hsy, sx, hsx, dy, hdy, dx, hdx, hxw, hyh, rfl⟩
    exact ⟨sy, hsy, sx, hsx, dy, hdy, dx, hdx, ⟨hxw, hyh⟩, rfl⟩

lemma idx_decomp {w x x' y y' : ℕ} (hx : x < w) (hx' : x' < w)
    (h : y * w + x = y' * w + x') : x = x' ∧ y = y' := by
  have hw : 0 < w := lt_of_le_of_lt (Nat.zero_le x) hx
  have e1 : (y * w + x) % w = x := by
    rw [Nat.add_comm, Nat.add_mul_mod_self_right, Nat.mod_eq_of_lt hx]
  have e2 : (y' * w + x') % w = x' := by
    rw [Nat.add_comm, Nat.add_mul_mod_self_right, Nat.mod_eq_of_lt hx']
  have hxx : x = x' := by rw [← e1, ← e2, h]
  refine ⟨hxx, ?_⟩
  have hyw : y * w = y' * w := by omega
  exact Nat.eq_of_mul_eq_mul_right hw hyw

lemma render_block_getD (scene : Scene) (cam : Camera) (buf : List RColor)
    (w h k sx sy dx dy : ℕ) (d0 : RColor)
    (hlen : w * h ≤ buf.length) (hsx : sx < w / k) (hsy : sy < h / k)
    (hdx : dx < k) (hdy : dy < k) :
    (renderSingleThreaded scene cam buf w h (w / k) (h / k) k).getD
        ((sy * k + dy) * w + (sx * k + dx)) d0
      = sampleColor scene cam (w / k) (h / k) sx sy := by
  have hxw : sx * k + dx < w := by
    have h1 : (sx + 1) * k ≤ (w / k) * k := Nat.mul_le_mul_right k hsx
    have h2 : (w / k) * k ≤ w := Nat.div_mul_le_self w k
    have h3 : (sx + 1) * k = sx * k + k := by ring
    omega
  have hyh : sy * k + dy < h := by
    have h1 : (sy + 1) * k ≤ (h / k) * k := Nat.mul_le_mul_right k hsy
    have h2 : (h / k) * k ≤ h := Nat.div_mul_le_self h k
    have h3 : (sy + 1) * k = sy * k + k := by ring
    omega
  have hidx : (sy * k + dy) * w + (sx * k + dx) < w * h := by
    have h1 : ((sy * k + dy) + 1) * w ≤ h * w := Nat.mul_le_mul_right w hyh
    have h2 : ((sy * k + dy) + 1) * w = (sy * k + dy) * w + w := by ring
    have h3 : h * w = w * h := Nat.mul_comm h w
    omega
  rw [renderSingle_eq_applyWrites]
  refine applyWrites_getD_all_eq _ _ _ _ _ ?_ ?_ (lt_of_lt_of_le hidx hlen)
  · exact ⟨_, mem_renderWrites.mpr ⟨sy, hsy, sx, hsx, dy, hdy, dx, hdx, hxw, hyh, rfl⟩, rfl⟩
  · rintro q hq hqi
    rcases mem_renderWrites.mp hq with
      ⟨sy', hsy', sx', hsx', dy', hdy', dx', hdx', hxw', hyh', rfl⟩
    dsimp only at hqi ⊢
    obtain ⟨hx, hy⟩ := idx_decomp hxw' hxw hqi
    obtain ⟨-, hsxe⟩ := idx_decomp hdx' hdx hx
    obtain ⟨-, hsye⟩ := idx_decomp hdy' hdy hy
    rw [hsxe, hsye]

/-- Claim C7 counterexample: at width 5 (not divisible by k = 2) the 2×2-block
color does not equal the k = 1 color of the block's top-left logical sample.
Pixel (2, 0) belongs to block (sx, sy) = (1, 0) at k = 2, whose sample uses
u = 1/(5/2) = 1/2, while rendering at k = 1 shades that same pixel with
u = 2/5; with a camera and sky that encode u in the color the two buffers
differ at index 2 (byte 127 against byte 102). -/
theorem downscale_k2_counterexample :
    (renderScene sceneSky camUV (List.replicate 10 ⟨0, 0, 0, 0⟩) 5 2 2 false).getD 2
        ⟨0, 0, 0, 0⟩
      ≠ (renderScene sceneSky camUV (List.replicate 10 ⟨0, 0, 0, 0⟩) 5 2 1 false).getD 2
        ⟨0, 0, 0, 0⟩ := by
  have h2 : (renderScene sceneSky camUV (List.replicate 10 ⟨0, 0, 0, 0⟩) 5 2 2 false).getD 2
      ⟨0, 0, 0, 0⟩ = sampleColor sceneSky camUV (5 / 2) (2 / 2) 1 0 := by
    show (renderSingleThreaded sceneSky camUV (List.replicate 10 ⟨0, 0, 0, 0⟩) 5 2
        (5 / 2) (2 / 2) 2).getD ((0 * 2 + 0) * 5 + (1 * 2 + 0)) ⟨0, 0, 0, 0⟩ = _
    exact render_block_getD sceneSky camUV _ 5 2 2 1 0 0 0 _ (by simp) (by norm_num)
      (by norm_num) (by norm_num) (by norm_num)
  have h1 : (renderScene sceneSky camUV (List.replicate 10 ⟨0, 0, 0, 0⟩) 5 2 1 false).getD 2
      ⟨0, 0, 0, 0⟩ = sampleColor sceneSky camUV (5 / 1) (2 / 1) 2 0 := by
    show (renderSingleThreaded sceneSky camUV (List.replicate 10 ⟨0, 0, 0, 0⟩) 5 2
        (5 / 1) (2 / 1) 1).getD ((0 * 1 + 0) * 5 + (2 * 1 + 0)) ⟨0, 0, 0, 0⟩ = _
    exact render_block_getD sceneSky camUV _ 5 2 1 2 0 0 0 _ (by simp) (by norm_num)
      (by norm_num) (by norm_num) (by norm_num)
  rw [h1, h2]
  have e2 : sampleColor sceneSky camUV (5 / 2) (2 / 2) 1 0 = ⟨127, 0, 0, 255⟩ := by
    norm_num [sampleColor, traceRay, MAX_DEPTH, traceGo, Scene.intersect, nearestScan,
      sceneSky, skyX, camUV, Color.toRaylib]
    decide
  have e1 : sampleColor sceneSky camUV (5 / 1) (2 / 1) 2 0 = ⟨102, 0, 0, 255⟩ := by
    norm_num [sampleColor, traceRay, MAX_DEPTH, traceGo, Scene.intersect, nearestScan,
      sceneSky, skyX, camUV, Color.toRaylib]
    decide
  rw [e1, e2]
  decide

/-- Claim C7 as amended: every logical sample (sx, sy) of the reduced
width/k × height/k grid has its color replicated into every pixel
(sx·k+dx, sy·k+dy) of its k×k block, so each block is uniform; and provided
k = 2 divides both width and height, the block color equals the color the
k = 1 rendering produces for the block's top-left logical sample (for widths
or heights not divisible by 2 the sample coordinates u = sx/(w/2) and
v = sy/(h/2) differ from the k = 1 coordinates, and the equality fails). -/
theorem downscale_block_replication :
    (∀ (scene : Scene) (cam : Camera) (buf : List RColor) (w h k sx sy dx dy : ℕ)
        (d0 : RColor), w * h ≤ buf.length → sx < w / k → sy < h / k → dx < k → dy < k →
        (renderScene scene cam buf w h k false).getD
            ((sy * k + dy) * w + (sx * k + dx)) d0
          = sampleColor scene cam (w / k) (h / k) sx sy)
    ∧ (∀ (scene : Scene) (cam : Camera) (buf : List RColor) (w h sx sy dx dy : ℕ)
        (d0 : RColor), w * h ≤ buf.length → 2 ∣ w → 2 ∣ h →
        sx < w / 2 → sy < h / 2 → dx < 2 → dy < 2 →
        (renderScene scene cam buf w h 2 false).getD
            ((sy * 2 + dy) * w + (sx * 2 + dx)) d0
          = (renderScene scene cam buf w h 1 false).getD ((2 * sy) * w + 2 * sx) d0) := by
  constructor
  · intro scene cam buf w h k sx sy dx dy d0 hlen hsx hsy hdx hdy
    show (renderSingleThreaded scene cam buf w h (w / k) (h / k) k).getD
        ((sy * k + dy) * w + (sx * k + dx)) d0 = _
    exact render_block_getD scene cam buf w h k sx sy dx dy d0 hlen hsx hsy hdx hdy
  · intro scene cam buf w h sx sy dx dy d0 hlen hw2 hh2 hsx hsy hdx hdy
    obtain ⟨mw, rfl⟩ := hw2
    obtain ⟨mh, rfl⟩ := hh2
    have hdw : 2 * mw / 2 = mw := Nat.mul_div_cancel_left mw (by norm_num)
    have hdh : 2 * mh / 2 = mh := Nat.mul_div_cancel_left mh (by norm_num)
    have hL : (renderScene scene cam buf (2 * mw) (2 * mh) 2 false).getD
        ((sy * 2 + dy) * (2 * mw) + (sx * 2 + dx)) d0
          = sampleColor scene cam (2 * mw / 2) (2 * mh / 2) sx sy := by
      show (renderSingleThreaded scene cam buf (2 * mw) (2 * mh) (2 * mw / 2)
          (2 * mh / 2) 2).getD ((sy * 2 + dy) * (2 * mw) + (sx * 2 + dx)) d0 = _
      exact render_block_getD scene cam buf (2 * mw) (2 * mh) 2 sx sy dx dy d0
        hlen hsx hsy hdx hdy
    have hsx1 : 2 * sx < 2 * mw / 1 := by rw [Nat.div_one]; rw [hdw] at hsx; omega
    have hsy1 : 2 * sy < 2 * mh / 1 := by rw [Nat.div_one]; rw [hdh] at hsy; omega
    have hR : (renderScene scene cam buf (2 * mw) (2 * mh) 1 false).getD
        ((2 * sy * 1 + 0) * (2 * mw) + (2 * sx * 1 + 0)) d0
          = sampleColor scene cam (2 * mw / 1) (2 * mh / 1) (2 * sx) (2 * sy) := by
      show (renderSingleThreaded scene cam buf (2 * mw) (2 * mh) (2 * mw / 1)
          (2 * mh / 1) 1).getD ((2 * sy * 1 + 0) * (2 * mw) + (2 * sx * 1 + 0)) d0 = _
      exact render_block_getD scene cam buf (2 * mw) (2 * mh) 1 (2 * sx) (2 * sy) 0 0 d0
        hlen hsx1 hsy1 (by norm_num) (by norm_num)
    rw [hL, show (2 * sy) * (2 * mw) + 2 * sx
        = (2 * sy * 1 + 0) * (2 * mw) + (2 * sx * 1 + 0) by ring, hR]
    simp only [sampleColor, hdw, hdh, Nat.div_one]
    have hu : ((2 * sx : ℕ) : ℚ) / ((2 * mw : ℕ) : ℚ) = (sx : ℚ) / (mw : ℚ) := by
      push_cast
      rw [mul_div_mul_left _ _ (two_ne_zero)]
    have hv : ((2 * sy : ℕ) : ℚ) / ((2 * mh : ℕ) : ℚ) = (sy : ℚ) / (mh : ℚ) := by
      push_cast
      rw [mul_div_mul_left _ _ (two_ne_zero)]
    rw [hu, hv]

/-- Witness for the amended C7 at concrete inputs: at w = 4, h = 2 (even) the
pixel (3, 1) of block (1, 0) carries the block's sample color, and pixel
(2, 0) agrees between the k = 2 and k = 1 renderings. -/
theorem downscale_block_replication_witness :
    (renderScene sceneSky camUV (List.replicate 8 ⟨0, 0, 0, 0⟩) 4 2 2 false).getD
        ((0 * 2 + 1) * 4 + (1 * 2 + 1)) ⟨0, 0, 0, 0⟩
      = sampleColor sceneSky camUV (4 / 2) (2 / 2) 1 0
    ∧ (renderScene sceneSky camUV (List.replicate 8 ⟨0, 0, 0, 0⟩) 4 2 2 false).getD
        ((0 * 2 + 0) * 4 + (1 * 2 + 0)) ⟨0, 0, 0, 0⟩
      = (renderScene sceneSky camUV (List.replicate 8 ⟨0, 0, 0, 0⟩) 4 2 1 false).getD
        ((2 * 0) * 4 + 2 * 1) ⟨0, 0, 0, 0⟩ :=
  ⟨downscale_block_replication.1 sceneSky camUV _ 4 2 2 1 0 1 1 _ (by norm_num)
      (by norm_num) (by norm_num) (by norm_num) (by norm_num),
   downscale_block_replication.2 sceneSky camUV _ 4 2 1 0 0 0 _ (by norm_num)
      (by norm_num) (by norm_num) (by norm_num) (by norm_num) (by norm_num) (by norm_num)⟩

/-- Claim C10: the renderer writes only buffer indices y·width + x with
x < width and y < height that lie inside the k×k cover of the reduced sample
grid (x < (width/k)·k, y < (height/k)·k); every index outside that cover — in
particular the rightmost columns and bottom rows left over when width or
height is not divisible by k — retains its previous content under both the
single-threaded and threaded paths; every write index is below width·height,
so no write is out of bounds for a buffer of at least that length, and the
buffer length is preserved. -/
theorem render_writes_bounds :
    (∀ (scene : Scene) (cam : Camera) (w h sw sh k : ℕ) (p : ℕ × RColor),
        p ∈ renderWrites scene cam w h sw sh k →
        ∃ x y, x < w ∧ y < h ∧ x < sw * k ∧ y < sh * k ∧ p.1 = y * w + x)
    ∧ (∀ (scene : Scene) (cam : Camera) (w h k : ℕ) (p : ℕ × RColor),
        p ∈ renderWrites scene cam w h (w / k) (h / k) k → p.1 < w * h)
    ∧ (∀ (scene : Scene) (cam : Camera) (buf : List RColor) (w h k i : ℕ)
        (d0 : RColor) (b : Bool),
        (∀ x y, x < (w / k) * k → y < (h / k) * k → i ≠ y * w + x) →
        (renderScene scene cam buf w h k b).getD i d0 = buf.getD i d0)
    ∧ (∀ (scene : Scene) (cam : Camera) (buf : List RColor) (w h k x y : ℕ)
        (d0 : RColor) (b : Bool), x < w → y < h →
        ((w / k) * k ≤ x ∨ (h / k) * k ≤ y) →
        (renderScene scene cam buf w h k b).getD (y * w + x) d0
          = buf.getD (y * w + x) d0)
    ∧ (∀ (scene : Scene) (cam : Camera) (buf : List RColor) (w h k : ℕ) (b : Bool),
        (renderScene scene cam buf w h k b).length = buf.length) := by
  have hchar : ∀ (scene : Scene) (cam : Camera) (w h sw sh k : ℕ) (p : ℕ × RColor),
      p ∈ renderWrites scene cam w h sw sh k →
      ∃ x y, x < w ∧ y < h ∧ x < sw * k ∧ y < sh * k ∧ p.1 = y * w + x := by
    intro scene cam w h sw sh k p hp
    rcases mem_renderWrites.mp hp with
      ⟨sy, hsy, sx, hsx, dy, hdy, dx, hdx, hxw, hyh, rfl⟩
    refine ⟨sx * k + dx, sy * k + dy, hxw, hyh, ?_, ?_, rfl⟩
    · have h1 : (sx + 1) * k ≤ sw * k := Nat.mul_le_mul_right k hsx
      have h2 : (sx + 1) * k = sx * k + k := by ring
      omega
    · have h1 : (sy + 1) * k ≤ sh * k := Nat.mul_le_mul_right k hsy
      have h2 : (sy + 1) * k = sy * k + k := by ring
      omega
  have hrs : ∀ (scene : Scene) (cam : Camera) (buf : List RColor) (w h k : ℕ) (b : Bool),
      renderScene scene cam buf w h k b
        = applyWrites buf (renderWrites scene cam w h (w / k) (h / k) k) := by
    intro scene cam buf w h k b
    cases b
    · exact renderSingle_eq_applyWrites scene cam buf w h (w / k) (h / k) k
    · exact renderThreaded_eq_applyWrites scene cam buf w h (w / k) (h / k) k
  have hnotmem : ∀ (scene : Scene) (cam : Camera) (buf : List RColor) (w h k i : ℕ)
      (d0 : RColor) (b : Bool),
      (∀ x y, x < (w / k) * k → y < (h / k) * k → i ≠ y * w + x) →
      (renderScene scene cam buf w h k b).getD i d0 = buf.getD i d0 := by
    intro scene cam buf w h k i d0 b hfree
    rw [hrs]
    refine applyWrites_getD_not_mem _ _ _ _ ?_
    intro p hp
    rcases hchar scene cam w h (w / k) (h / k) k p hp with ⟨x, y, -, -, hxk, hyk, hpi⟩
    rw [hpi]
    exact fun hcontra => hfree x y hxk hyk hcontra.symm
  refine ⟨hchar, ?_, hnotmem, ?_, ?_⟩
  · intro scene cam w h k p hp
    rcases hchar scene cam w h (w / k) (h / k) k p hp with ⟨x, y, hxw, hyh, -, -, hpi⟩
    have h1 : (y + 1) * w ≤ h * w := Nat.mul_le_mul_right w hyh
    have h2 : (y + 1) * w = y * w + w := by ring
    have h3 : h * w = w * h := Nat.mul_comm h w
    omega
  · intro scene cam buf w h k x y d0 b hxw hyh hout
    refine hnotmem scene cam buf w h k (y * w + x) d0 b ?_
    intro x' y' hx'k hy'k heq
    have hx'w : x' < w := lt_of_lt_of_le hx'k (Nat.div_mul_le_self w k)
    obtain ⟨hxe, hye⟩ := idx_decomp hxw hx'w heq
    rcases hout with hx | hy
    · omega
    · omega
  · intro scene cam buf w h k b
    rw [hrs]
    exact applyWrites_length _ buf

/-- Witness for C10 at concrete inputs: a write of the 3×2, k = 2 rendering
has index 0 < 3·2, and index 2 (the rightmost odd column, x = 2 ≥ (3/2)·2)
keeps its previous content under the threaded path. -/
theorem render_writes_bounds_witness :
    (((0 * 2 + 0) * 3 + (0 * 2 + 0),
        sampleColor scene0 camUV (3 / 2) (2 / 2) 0 0) : ℕ × RColor).1 < 3 * 2
    ∧ (renderScene scene0 camUV (List.replicate 6 ⟨9, 9, 9, 9⟩) 3 2 2 true).getD
        (0 * 3 + 2) ⟨0, 0, 0, 0⟩
      = (List.replicate 6 (⟨9, 9, 9, 9⟩ : RColor)).getD (0 * 3 + 2) ⟨0, 0, 0, 0⟩ :=
  ⟨render_writes_bounds.2.1 scene0 camUV 3 2 2 _
      (mem_renderWrites.mpr ⟨0, by norm_num, 0, by norm_num, 0, by norm_num, 0,
        by norm_num, by norm_num, by norm_num, rfl⟩),
   render_writes_bounds.2.2.2.1 scene0 camUV _ 3 2 2 2 0 _ true (by norm_num)
      (by norm_num) (Or.inl (by norm_num))⟩
lemma nearestScan_cons {β : Type} (get : β → Option Intersection) (a : β) (l : List β)
    (init : Option Intersection) :
    nearestScan get (a :: l) init
      = nearestScan get l
          (match get a with
           | some ix =>
             match init with
             | some cx => if ix.t < cx.t then some ix else init
             | none => some ix
           | none => init) := rfl

lemma nearestScan_eq_none {β : Type} (get : β → Option Intersection) :
    ∀ (l : List β) (init : Option Intersection),
      nearestScan get l init = none ↔ init = none ∧ ∀ x ∈ l, get x = none := by
  intro l
  induction l with
  | nil => intro init; simp [nearestScan]
  | cons a rest ih =>
    intro init
    rw [nearestScan_cons, ih]
    cases hga : get a with
    | none => simp [hga]
    | some jx =>
      cases init with
      | none => simp [hga]
      | some cx =>
        simp only [hga, List.forall_mem_cons]
        split_ifs <;> simp

lemma nearestScan_mem {β : Type} (get : β → Option Intersection) :
    ∀ (l : List β) (init : Option Intersection) (ix : Intersection),
      nearestScan get l init = some ix →
      init = some ix ∨ ∃ x ∈ l, get x = some ix := by
  intro l
  induction l with
  | nil => intro init ix h; exact Or.inl h
  | cons a rest ih =>
    intro init ix h
    rw [nearestScan_cons] at h
    rcases ih _ _ h with hstep | ⟨x, hx, hgx⟩
    · cases hga : get a with
      | none => simp only [hga] at hstep; exact Or.inl hstep
      | some jx =>
        simp only [hga] at hstep
        cases init with
        | none =>
          dsimp only at hstep
          exact Or.inr ⟨a, List.mem_cons_self a rest, by rw [hga]; exact hstep⟩
        | some cx =>
          dsimp only at hstep
          by_cases hlt : jx.t < cx.t
          · rw [if_pos hlt] at hstep
            exact Or.inr ⟨a, List.mem_cons_self a rest, by rw [hga]; exact hstep⟩
          · rw [if_neg hlt] at hstep
            exact Or.inl hstep
    · exact Or.inr ⟨x, List.mem_cons_of_mem a hx, hgx⟩

lemma nearestScan_min {β : Type} (get : β → Option Intersection) :
    ∀ (l : List β) (init : Option Intersection) (ix : Intersection),
      nearestScan get l init = some ix →
      (∀ x ∈ l, ∀ jx, get x = some jx → ix.t ≤ jx.t)
      ∧ (∀ cx, init = some cx → ix.t ≤ cx.t) := by
  intro l
  induction l with
  | nil =>
    intro init ix h
    refine ⟨by simp, fun cx hcx => ?_⟩
    rw [hcx] at h
    injection h with h
    rw [h]
  | cons a rest ih =>
    intro init ix h
    rw [nearestScan_cons] at h
    have H := ih _ _ h
    constructor
    · intro x hx jx hjx
      rcases List.mem_cons.mp hx with rfl | hx'
      · cases init with
        | none => exact H.2 jx (by simp [hjx])
        | some cx =>
          by_cases hlt : jx.t < cx.t
          · exact H.2 jx (by simp [hjx, hlt])
          · exact le_trans (H.2 cx (by simp [hjx, hlt])) (not_lt.mp hlt)
      · exact H.1 x hx' jx hjx
    · intro cx hcx
      cases hga : get a with
      | none => exact H.2 cx (by simp [hga, hcx])
      | some jx =>
        by_cases hlt : jx.t < cx.t
        · exact le_trans (H.2 jx (by simp [hga, hcx, hlt])) (le_of_lt hlt)
        · exact H.2 cx (by simp [hga, hcx, hlt])

lemma traceRay_empty_scene (s : Scene) (r : Ray) (hc : s.cubes = [])
    (hm : s.meshes = []) : traceRay r s 0 = s.skybox.sample r 0 := by
  have hnone : Scene.intersect s r = none := by
    rw [Scene.intersect, hc, hm]
    rfl
  rw [traceRay, show ((MAX_DEPTH - 0).toNat) = 4 + 1 by decide]
  simp only [traceGo, hnone]

/-- Claim C5: the scene's nearest-intersection query linearly scans every box
then every mesh and returns a hit of minimum distance t (no hit exactly when
no primitive intersects); for an empty scene every ray misses, so the shading
of every rendered pixel is the sky sampler's result for that pixel's ray. -/
theorem scene_nearest_intersection_charn :
    (∀ (s : Scene) (r : Ray), Scene.intersect s r = none ↔
        (∀ c ∈ s.cubes, c.intersect r = none)
        ∧ (∀ m ∈ s.meshes, Mesh.intersect m r = none))
    ∧ (∀ (s : Scene) (r : Ray) (ix : Intersection), Scene.intersect s r = some ix →
        ((∃ c ∈ s.cubes, c.intersect r = some ix)
          ∨ (∃ m ∈ s.meshes, Mesh.intersect m r = some ix))
        ∧ (∀ c ∈ s.cubes, ∀ jx, c.intersect r = some jx → ix.t ≤ jx.t)
        ∧ (∀ m ∈ s.meshes, ∀ jx, Mesh.intersect m r = some jx → ix.t ≤ jx.t))
    ∧ (∀ (s : Scene) (r : Ray), s.cubes = [] → s.meshes = [] →
        traceRay r s 0 = s.skybox.sample r 0)
    ∧ (∀ (s : Scene) (cam : Camera) (buf : List RColor) (w h k sx sy dx dy : ℕ)
        (d0 : RColor), s.cubes = [] → s.meshes = [] → w * h ≤ buf.length →
        sx < w / k → sy < h / k → dx < k → dy < k →
        (renderScene s cam buf w h k false).getD ((sy * k + dy) * w + (sx * k + dx)) d0
          = (s.skybox.sample
              (cam.getRay ((sx : ℚ) / ((w / k : ℕ) : ℚ)) ((sy : ℚ) / ((h / k : ℕ) : ℚ)))
              0).toRaylib) := by
  refine ⟨?_, ?_, fun s r hc hm => traceRay_empty_scene s r hc hm, ?_⟩
  · intro s r
    rw [Scene.intersect]
    rw [nearestScan_eq_none, nearestScan_eq_none]
    simp
  · intro s r ix h
    rw [Scene.intersect] at h
    refine ⟨?_, ?_, (nearestScan_min _ _ _ _ h).1⟩
    · rcases nearestScan_mem _ _ _ _ h with hinit | ⟨m, hm, hgm⟩
      · rcases nearestScan_mem _ _ _ _ hinit with hnone | ⟨c, hc, hgc⟩
        · exact absurd hnone (by simp)
        · exact Or.inl ⟨c, hc, hgc⟩
      · exact Or.inr ⟨m, hm, hgm⟩
    · intro c hc jx hjx
      cases hac : nearestScan (fun cube => cube.intersect r) s.cubes none with
      | none =>
        have hall := (nearestScan_eq_none _ _ _).mp hac
        exact absurd hjx (by simp [hall.2 c hc])
      | some cx =>
        have h1 : ix.t ≤ cx.t := (nearestScan_min _ _ _ _ h).2 cx hac
        have h2 : cx.t ≤ jx.t := (nearestScan_min _ _ _ _ hac).1 c hc jx hjx
        exact le_trans h1 h2
  · intro s cam buf w h k sx sy dx dy d0 hc hm hlen hsx hsy hdx hdy
    have hb : (renderScene s cam buf w h k false).getD
        ((sy * k + dy) * w + (sx * k + dx)) d0
          = sampleColor s cam (w / k) (h / k) sx sy := by
      show (renderSingleThreaded s cam buf w h (w / k) (h / k) k).getD
          ((sy * k + dy) * w + (sx * k + dx)) d0 = _
      exact render_block_getD s cam buf w h k sx sy dx dy d0 hlen hsx hsy hdx hdy
    rw [hb]
    simp only [sampleColor]
    rw [traceRay_empty_scene s _ hc hm]

/-- Witness for C5 at concrete inputs: the one-box scene reports its box's
hit, and the empty scene shades a ray with the sky sampler. -/
theorem scene_nearest_intersection_charn_witness :
    ((∃ c ∈ sceneHit.cubes, c.intersect rayZ = some ix0)
      ∨ (∃ m ∈ sceneHit.meshes, Mesh.intersect m rayZ = some ix0))
    ∧ traceRay rayZ scene0 0 = scene0.skybox.sample rayZ 0 :=
  ⟨(scene_nearest_intersection_charn.2.1 sceneHit rayZ ix0 rfl).1,
   scene_nearest_intersection_charn.2.2.1 scene0 rayZ rfl rfl⟩
@[ext] lemma Vec3_ext (a b : Vec3) (hx : a.x = b.x) (hy : a.y = b.y)
    (hz : a.z = b.z) : a = b := by
  cases a; cases b; simp_all

@[simp] lemma Vec3_add_x (a b : Vec3) : (a + b).x = a.x + b.x := rfl

@[simp] lemma Vec3_add_y (a b : Vec3) : (a + b).y = a.y + b.y := rfl

@[simp] lemma Vec3_add_z (a b : Vec3) : (a + b).z = a.z + b.z := rfl

@[simp] lemma Vec3_hmul_x (a : Vec3) (s : ℚ) : (a * s).x = a.x * s := rfl

@[simp] lemma Vec3_hmul_y (a : Vec3) (s : ℚ) : (a * s).y = a.y * s := rfl

@[simp] lemma Vec3_hmul_z (a : Vec3) (s : ℚ) : (a * s).z = a.z * s := rfl

lemma traceGo_hit (s : Scene) (r : Ray) (n : ℕ) (ix : Intersection)
    (hhit : Scene.intersect s r = some ix)
    (hem : ¬(0 < ix.material.emissive.r ∨ 0 < ix.material.emissive.g ∨
      0 < ix.material.emissive.b)) :
    traceGo s (n + 1) r =
      Color.clamp
        (if 0 < ix.material.transparency then
          match Vec3.refract r.direction ix.normal (1 / ix.material.refractiveIndex) with
          | some refractDir =>
            (if 0 < ix.material.reflectivity then
              ((Color.mk (2/5) (2/5) (9/20) +
                (if (Scene.intersect s
                    ⟨ix.position + ix.normal * (1/1000 : ℚ), -s.sun.direction⟩).isSome
                  then Color.black
                  else s.sun.color *
                    (max (ix.normal.dot (-s.sun.direction)) 0 * s.sun.intensity))) *
                ix.material.getColor ix.u ix.v) * (1 - ix.material.reflectivity) +
                traceGo s n
                  ⟨ix.position + ix.normal * (1/1000 : ℚ),
                    Vec3.reflect r.direction ix.normal⟩ * ix.material.reflectivity
            else
              ((Color.mk (2/5) (2/5) (9/20) +
                (if (Scene.intersect s
                    ⟨ix.position + ix.normal * (1/1000 : ℚ), -s.sun.direction⟩).isSome
                  then Color.black
                  else s.sun.color *
                    (max (ix.normal.dot (-s.sun.direction)) 0 * s.sun.intensity))) *
                ix.material.getColor ix.u ix.v)) * (1 - ix.material.transparency) +
              traceGo s n ⟨ix.position - ix.normal * (1/1000 : ℚ), refractDir⟩ *
                ix.material.transparency
          | none =>
            if 0 < ix.material.reflectivity then
              ((Color.mk (2/5) (2/5) (9/20) +
                (if (Scene.intersect s
                    ⟨ix.position + ix.normal * (1/1000 : ℚ), -s.sun.direction⟩).isSome
                  then Color.black
                  else s.sun.color *
                    (max (ix.normal.dot (-s.sun.direction)) 0 * s.sun.intensity))) *
                ix.material.getColor ix.u ix.v) * (1 - ix.material.reflectivity) +
                traceGo s n
                  ⟨ix.position + ix.normal * (1/1000 : ℚ),
                    Vec3.reflect r.direction ix.normal⟩ * ix.material.reflectivity
            else
              ((Color.mk (2/5) (2/5) (9/20) +
                (if (Scene.intersect s
                    ⟨ix.position + ix.normal * (1/1000 : ℚ), -s.sun.direction⟩).isSome
                  then Color.black
                  else s.sun.color *
                    (max (ix.normal.dot (-s.sun.direction)) 0 * s.sun.intensity))) *
                ix.material.getColor ix.u ix.v)
        else
          if 0 < ix.material.reflectivity then
            ((Color.mk (2/5) (2/5) (9/20) +
              (if (Scene.intersect s
                  ⟨ix.position + ix.normal * (1/1000 : ℚ), -s.sun.direction⟩).isSome
                then Color.black
                else s.sun.color *
                  (max (ix.normal.dot (-s.sun.direction)) 0 * s.sun.intensity))) *
              ix.material.getColor ix.u ix.v) * (1 - ix.material.reflectivity) +
              traceGo s n
                ⟨ix.position + ix.normal * (1/1000 : ℚ),
                  Vec3.reflect r.direction ix.normal⟩ * ix.material.reflectivity
          else
            ((Color.mk (2/5) (2/5) (9/20) +
              (if (Scene.intersect s
                  ⟨ix.position + ix.normal * (1/1000 : ℚ), -s.sun.direction⟩).isSome
                then Color.black
                else s.sun.color *
                  (max (ix.normal.dot (-s.sun.direction)) 0 * s.sun.intensity))) *
              ix.material.getColor ix.u ix.v)) := by
  simp only [traceGo, hhit]
  rw [if_neg hem]

/-- Claim C6: for every hit with normal n (non-emissive, no reflection or
refraction dial engaged, below the depth ceiling), the shaded color is the
clamped product of the surface color with ambient plus the diffuse term
max(0, n·(−sunDirection)) × sun color × sun intensity, and the diffuse term
is fully zeroed exactly when the shadow ray cast from hit-point + n·epsilon
toward the negated sun direction intersects any scene primitive — with no
distance or attenuation check against the light. -/
theorem diffuse_shadow_charn (s : Scene) (r : Ray) (d : ℤ) (ix : Intersection)
    (hd : d < MAX_DEPTH) (hhit : Scene.intersect s r = some ix)
    (hem : ¬(0 < ix.material.emissive.r ∨ 0 < ix.material.emissive.g ∨
      0 < ix.material.emissive.b))
    (hrefl : ¬ 0 < ix.material.reflectivity)
    (htr : ¬ 0 < ix.material.transparency) :
    traceRay r s d =
      Color.clamp
        ((Color.mk (2/5) (2/5) (9/20) +
          (if (Scene.intersect s
              ⟨ix.position + ix.normal * (1/1000 : ℚ), -s.sun.direction⟩).isSome
            then Color.black
            else s.sun.color *
              (max (ix.normal.dot (-s.sun.direction)) 0 * s.sun.intensity))) *
          ix.material.getColor ix.u ix.v) := by
  obtain ⟨n, hn⟩ : ∃ n, (MAX_DEPTH - d).toNat = n + 1 :=
    ⟨(MAX_DEPTH - d).toNat - 1, by simp only [MAX_DEPTH] at hd ⊢; omega⟩
  rw [traceRay, hn, traceGo_hit s r n ix hhit hem, if_neg htr, if_neg hrefl]

/-- Claim C8: when a hit material has transparency > 0, the refracted
direction is computed with eta = 1/refractive_index (entry-only refraction);
if the refraction has no real solution (total internal reflection yields
nothing) the bounce contribution is omitted and the color is unchanged by
the refraction branch, with no error; otherwise a ray from
hit-point − normal·epsilon recurses with depth+1 and is linearly blended
into the color by the transparency fraction. -/
theorem refraction_branch_charn (s : Scene) (r : Ray) (d : ℤ) (ix : Intersection)
    (hd : d < MAX_DEPTH) (hhit : Scene.intersect s r = some ix)
    (hem : ¬(0 < ix.material.emissive.r ∨ 0 < ix.material.emissive.g ∨
      0 < ix.material.emissive.b))
    (hrefl : ¬ 0 < ix.material.reflectivity)
    (htr : 0 < ix.material.transparency) :
    (Vec3.refract r.direction ix.normal (1 / ix.material.refractiveIndex) = none →
      traceRay r s d =
        Color.clamp
          ((Color.mk (2/5) (2/5) (9/20) +
            (if (Scene.intersect s
                ⟨ix.position + ix.normal * (1/1000 : ℚ), -s.sun.direction⟩).isSome
              then Color.black
              else s.sun.color *
                (max (ix.normal.dot (-s.sun.direction)) 0 * s.sun.intensity))) *
            ix.material.getColor ix.u ix.v))
    ∧ (∀ refractDir : Vec3,
        Vec3.refract r.direction ix.normal (1 / ix.material.refractiveIndex)
          = some refractDir →
        traceRay r s d =
          Color.clamp
            (((Color.mk (2/5) (2/5) (9/20) +
              (if (Scene.intersect s
                  ⟨ix.position + ix.normal * (1/1000 : ℚ), -s.sun.direction⟩).isSome
                then Color.black
                else s.sun.color *
                  (max (ix.normal.dot (-s.sun.direction)) 0 * s.sun.intensity))) *
              ix.material.getColor ix.u ix.v) * (1 - ix.material.transparency) +
              traceRay ⟨ix.position - ix.normal * (1/1000 : ℚ), refractDir⟩ s (d + 1) *
                ix.material.transparency)) := by
  obtain ⟨n, hn⟩ : ∃ n, (MAX_DEPTH - d).toNat = n + 1 :=
    ⟨(MAX_DEPTH - d).toNat - 1, by simp only [MAX_DEPTH] at hd ⊢; omega⟩
  have hrec : ∀ rr : Ray, traceRay rr s (d + 1) = traceGo s n rr := by
    intro rr
    rw [traceRay, show (MAX_DEPTH - (d + 1)).toNat = n by
      simp only [MAX_DEPTH] at hn ⊢; omega]
  constructor
  · intro hnone
    rw [traceRay, hn, traceGo_hit s r n ix hhit hem, if_pos htr, hnone, if_neg hrefl]
  · intro refractDir hsome
    rw [traceRay, hn, traceGo_hit s r n ix hhit hem, if_pos htr, hsome, if_neg hrefl,
      hrec]




/-- Witness for C6 at concrete inputs: the constant-hit scene shades the -z
ray to the claimed ambient-plus-diffuse form. -/
theorem diffuse_shadow_charn_witness :
    traceRay rayZ sceneHit 0 =
      Color.clamp
        ((Color.mk (2/5) (2/5) (9/20) +
          (if (Scene.intersect sceneHit
              ⟨ix0.position + ix0.normal * (1/1000 : ℚ), -sceneHit.sun.direction⟩).isSome
            then Color.black
            else sceneHit.sun.color *
              (max (ix0.normal.dot (-sceneHit.sun.direction)) 0 *
                sceneHit.sun.intensity))) *
          ix0.material.getColor ix0.u ix0.v) :=
  diffuse_shadow_charn sceneHit rayZ 0 ix0 (by decide) rfl (by decide) (by decide)
    (by decide)

/-- Witness for C8 at concrete inputs: a refractive index of 1/2 (eta = 2)
with a grazing ray produces total internal reflection and the refraction
branch leaves the color unchanged; a refractive index of 1 refracts straight
through and blends the recursive color by the transparency 1/2. -/
theorem refraction_branch_charn_witness :
    (traceRay rayX sceneTIR 0 =
      Color.clamp
        ((Color.mk (2/5) (2/5) (9/20) +
          (if (Scene.intersect sceneTIR
              ⟨ixTIR.position + ixTIR.normal * (1/1000 : ℚ),
                -sceneTIR.sun.direction⟩).isSome
            then Color.black
            else sceneTIR.sun.color *
              (max (ixTIR.normal.dot (-sceneTIR.sun.direction)) 0 *
                sceneTIR.sun.intensity))) *
          ixTIR.material.getColor ixTIR.u ixTIR.v))
    ∧ (traceRay rayZ sceneRefr 0 =
      Color.clamp
        (((Color.mk (2/5) (2/5) (9/20) +
          (if (Scene.intersect sceneRefr
              ⟨ixRefr.position + ixRefr.normal * (1/1000 : ℚ),
                -sceneRefr.sun.direction⟩).isSome
            then Color.black
            else sceneRefr.sun.color *
              (max (ixRefr.normal.dot (-sceneRefr.sun.direction)) 0 *
                sceneRefr.sun.intensity))) *
          ixRefr.material.getColor ixRefr.u ixRefr.v) *
            (1 - ixRefr.material.transparency) +
          traceRay ⟨ixRefr.position - ixRefr.normal * (1/1000 : ℚ), ⟨0, 0, -1⟩⟩
              sceneRefr (0 + 1) * ixRefr.material.transparency)) :=
  ⟨(refraction_branch_charn sceneTIR rayX 0 ixTIR (by decide) rfl (by decide)
      (by decide) (by norm_num [matTIR, ixTIR])).1
      (by norm_num [Vec3.refract, Vec3.dot, rayX, ixTIR, matTIR]),
   (refraction_branch_charn sceneRefr rayZ 0 ixRefr (by decide) rfl (by decide)
      (by decide) (by norm_num [matRefr, ixRefr])).2 ⟨0, 0, -1⟩
      (by
        norm_num [Vec3.refract, Vec3.dot, rayZ, ixRefr, matRefr, sqrtQ, List.range_succ]
        ext <;> simp)⟩
